import Mathlib

/-!
Verification development for the Oppia exploration domain engine
(`core/domain/exp_domain.py`): the state-graph entity and its structural
mutations, the strict validation pass, the schema-migration chain and the
change-list merge analyzer (`ExplorationChangeMergeVerifier`).

Python dicts are embedded as association lists with insertion-order
semantics (`dictSet` updates in place or appends, `dictRemove` deletes the
entry); state/outcome internals that live in `state_domain.py` (not part of
this source tree) are modelled from the spec where noted.
-/

namespace Oppia

/-- Python-dict lookup on an association list (first matching key wins). -/
def dictGet : List (String × α) → String → Option α
  | [], _ => none
  | (k, v) :: rest, key => if key = k then some v else dictGet rest key

/-- Python-dict assignment: update the entry in place if the key is present,
otherwise append the new entry at the end (insertion order). -/
def dictSet : List (String × α) → String → α → List (String × α)
  | [], k, v => [(k, v)]
  | (k', v') :: rest, k, v =>
    if k = k' then (k, v) :: rest else (k', v') :: dictSet rest k v

/-- Python-dict `del`: remove the (unique) entry with the given key. -/
def dictRemove : List (String × α) → String → List (String × α)
  | [], _ => []
  | (k', v') :: rest, k => if k = k' then rest else (k', v') :: dictRemove rest k

def dictKeys (d : List (String × α)) : List String := d.map Prod.fst

/-- Modelled from the spec: `Outcome` (in `state_domain.py`, outside this
source tree) — destination node name, optional external-document reference
(refresher exploration id), and the "labelled correct" flag. -/
structure Outcome where
  dest : String
  refresher_exploration_id : Option String
  labelled_as_correct : Bool
  deriving Repr, DecidableEq

/-- Modelled from the spec: an answer group carries an outcome. -/
structure AnswerGroup where
  outcome : Outcome
  deriving Repr, DecidableEq

/-- Modelled from the spec: interaction descriptor — interaction-type id, an
ordered list of answer groups, an optional default outcome, and whether the
interaction type signals end-of-document (`is_terminal`). -/
structure Interaction where
  id : Option String
  answer_groups : List AnswerGroup
  default_outcome : Option Outcome
  is_terminal : Bool
  deriving Repr, DecidableEq

/-- Modelled from the spec: `State.get_all_outcomes` — the outcome of every
answer group plus the default outcome, if any. -/
def Interaction.get_all_outcomes (i : Interaction) : List Outcome :=
  i.answer_groups.map (fun g => g.outcome) ++ i.default_outcome.toList

/-- A node ("state") of the graph, with the fields the verified claims
touch: content block, interaction, checkpoint flag and the
solicit-answer-details flag. -/
structure State where
  content_html : String
  interaction : Interaction
  card_is_checkpoint : Bool
  solicit_answer_details : Bool
  deriving Repr, DecidableEq

/-- Modelled from the spec: `State.create_default_state` — a node with
default content and a null interaction. -/
def State.createDefault (_name : String) : State :=
  { content_html := ""
    interaction :=
      { id := none, answer_groups := [], default_outcome := none
        is_terminal := false }
    card_is_checkpoint := false
    solicit_answer_details := false }

/-- The exploration entity: the name-to-node mapping, the designated initial
node and the metadata fields the claims touch. -/
structure Exploration where
  states : List (String × State)
  init_state_name : String
  title : String
  category : String
  objective : String
  deriving Repr, DecidableEq

/-- `states[name].card_is_checkpoint = b` (in-place field assignment;
a no-op when the key is absent, which callers below guard against). -/
def setCheckpointFlag (d : List (String × State)) (name : String) (b : Bool) :
    List (String × State) :=
  d.map (fun p => if p.1 = name then (p.1, { p.2 with card_is_checkpoint := b }) else p)

/-- `Exploration.update_init_state_name`: fails when the new name is not in
the states dict; otherwise re-points `init_state_name`, clears the previous
init node's checkpoint flag (if that node is still present) and forces the
new init node's checkpoint flag to `True`. -/
def updateInitStateName (e : Exploration) (newName : String) : Except String Exploration :=
  let oldInit := e.init_state_name
  if (dictGet e.states newName).isNone then
    .error ("Invalid new initial state name: " ++ newName)
  else
    let states1 :=
      if (dictGet e.states oldInit).isSome then setCheckpointFlag e.states oldInit false
      else e.states
    .ok { e with init_state_name := newName, states := setCheckpointFlag states1 newName true }

/-- Rewrite this outcome's `dest` from `oldName` to `newName` (used by both
`rename_state`, with the new name, and `delete_state`, with the containing
state's own name). -/
def Outcome.retarget (o : Outcome) (oldName newName : String) : Outcome :=
  if o.dest = oldName then { o with dest := newName } else o

/-- Apply `Outcome.retarget` to every outcome of the state (every answer
group's outcome and the default outcome), as the in-place loops over
`get_all_outcomes()` do. -/
def State.retargetDests (st : State) (oldName newName : String) : State :=
  { st with
    interaction :=
      { st.interaction with
        answer_groups :=
          st.interaction.answer_groups.map
            (fun g => { g with outcome := g.outcome.retarget oldName newName })
        default_outcome := st.interaction.default_outcome.map
          (fun o => o.retarget oldName newName) } }

/-- `Exploration.rename_state`: NotFound if `old` is absent; DuplicateName if
`new` is present and differs from `old`; no-op when `old = new`. On success,
deep-copies the node under the new name, deletes the old entry, re-runs the
init-node update when the old name was the init node, and rewrites every
outcome `dest` equal to `old` to `new`. `_validate_state_name` delegates to
`utils.require_valid_name`, which is outside this source tree; the spec's
`rename_node` lists no name-validity failure, so it is modelled as passing. -/
def renameState (e : Exploration) (oldName newName : String) : Except String Exploration :=
  match dictGet e.states oldName with
  | none => .error ("State " ++ oldName ++ " does not exist")
  | some st =>
    if oldName ≠ newName ∧ (dictGet e.states newName).isSome then
      .error ("Duplicate state name: " ++ newName)
    else if oldName = newName then .ok e
    else
      let e1 : Exploration :=
        { e with states := dictRemove (dictSet e.states newName st) oldName }
      let afterInit : Except String Exploration :=
        if e1.init_state_name = oldName then updateInitStateName e1 newName else .ok e1
      afterInit.map (fun e2 =>
        { e2 with
          states := e2.states.map (fun p => (p.1, p.2.retargetDests oldName newName)) })

/-- `Exploration.delete_state`: NotFound if absent; never deletes the init
node; otherwise rewrites, in every state, each outcome `dest` equal to the
deleted name to point back at the containing state itself, then removes the
entry. -/
def deleteState (e : Exploration) (name : String) : Except String Exploration :=
  if (dictGet e.states name).isNone then
    .error ("State " ++ name ++ " does not exist")
  else if e.init_state_name = name then
    .error "Cannot delete initial state of an exploration."
  else
    let states1 := e.states.map (fun p => (p.1, p.2.retargetDests name p.1))
    .ok { e with states := dictRemove states1 name }

/-- `self.states[dest_state].interaction.is_terminal` — lookup is in the
FULL states dict (the excluded checkpoint included). A missing key would
raise in Python; the structural pass run before the strict block guarantees
every `dest` resolves, so the `none` case is unreachable there. -/
def isTerminalIn (states : List (String × State)) (name : String) : Bool :=
  match dictGet states name with
  | some st => st.interaction.is_terminal
  | none => false

/-- The inner append loop of the breadth-first searches: each `dest` is
appended to the queue unless it is already in the (current) queue or in the
processed set. -/
def enqueueDests (outs : List Outcome) (processed : List String) (q : List String) :
    List String :=
  outs.foldl (fun q o => if o.dest ∈ q ∨ o.dest ∈ processed then q else q ++ [o.dest]) q

/-- Number of keys of `dictRemove states excluded` not yet processed — the
termination measure of the bypassability search. -/
def unprocessedCount (states : List (String × State)) (excluded : String)
    (processed : List String) : Nat :=
  ((dictRemove states excluded).map Prod.fst).countP (fun k => decide (k ∉ processed))

theorem countP_notmem_lt (l P Q : List String) (s : String)
    (hPQ : ∀ x, x ∈ P → x ∈ Q) (hsQ : s ∈ Q) (hsP : s ∉ P) (hsl : s ∈ l) :
    l.countP (fun k => decide (k ∉ Q)) < l.countP (fun k => decide (k ∉ P)) := by
  induction l with
  | nil => cases hsl
  | cons a t ih =>
    have hmono : t.countP (fun k => decide (k ∉ Q)) ≤ t.countP (fun k => decide (k ∉ P)) := by
      apply List.countP_mono_left
      intro x _ hx
      simp only [decide_eq_true_eq] at hx ⊢
      exact fun hxP => hx (hPQ x hxP)
    have if0 : (if (false : Bool) = true then 1 else 0) = 0 := rfl
    have if1 : (if (true : Bool) = true then 1 else 0) = 1 := rfl
    rcases List.mem_cons.mp hsl with h | h
    · subst h
      have h1 : (decide (s ∉ Q) : Bool) = false := by simp [hsQ]
      have h2 : (decide (s ∉ P) : Bool) = true := by simp [hsP]
      rw [List.countP_cons, List.countP_cons, h1, h2, if0, if1]
      omega
    · by_cases ha : a ∈ Q
      · have haQ : (decide (a ∉ Q) : Bool) = false := by simp [ha]
        rw [List.countP_cons, List.countP_cons, haQ, if0]
        have hle : (if (decide (a ∉ P) : Bool) = true then 1 else 0) = 0 ∨
            (if (decide (a ∉ P) : Bool) = true then 1 else 0) = 1 := by
          by_cases hP : (decide (a ∉ P) : Bool) = true <;> simp [hP]
        have := ih h
        omega
      · have h1 : (decide (a ∉ Q) : Bool) = true := by simp [ha]
        have h2 : (decide (a ∉ P) : Bool) = true := by
          simp only [decide_eq_true_eq]
          exact fun hP => ha (hPQ a hP)
        rw [List.countP_cons, List.countP_cons, h1, h2, if1]
        have := ih h
        omega

theorem countP_notmem_congr (l P Q : List String)
    (h : ∀ x ∈ l, x ∈ P ↔ x ∈ Q) :
    l.countP (fun k => decide (k ∉ Q)) = l.countP (fun k => decide (k ∉ P)) := by
  apply List.countP_congr
  intro x hx
  simp [h x hx]

theorem mem_keys_of_dictGet {d : List (String × α)} {k : String} {v : α}
    (h : dictGet d k = some v) : k ∈ d.map Prod.fst := by
  induction d with
  | nil => simp [dictGet] at h
  | cons p rest ih =>
    by_cases hk : k = p.1
    · simp [hk]
    · simp only [dictGet, hk, if_false] at h
      simpa using Or.inr (ih h)

theorem not_mem_keys_of_dictGet_none {d : List (String × α)} {k : String}
    (h : dictGet d k = none) : k ∉ d.map Prod.fst := by
  induction d with
  | nil => simp
  | cons p rest ih =>
    simp only [dictGet] at h
    by_cases hk : k = p.1
    · simp [hk] at h
    · simp only [hk, if_false] at h
      simpa [hk] using ih h

/-- The per-checkpoint breadth-first search of the bypassability check
(`Exploration.validate`, strict block): pop the head of the queue, skip the
excluded checkpoint and already-processed names, and when expanding a state
flag bypassability as soon as any outcome `dest` is terminal, otherwise
enqueue the unseen destinations. Returns whether a terminal destination was
reached (the code raises at that point). -/
def bfsVisit (states : List (String × State)) (excluded : String) :
    (processed : List String) → (queue : List String) → Bool
  | _, [] => false
  | processed, s :: rest =>
    if s = excluded then bfsVisit states excluded processed rest
    else if _hp : s ∈ processed then bfsVisit states excluded processed rest
    else
      match _hs : dictGet (dictRemove states excluded) s with
      | none => bfsVisit states excluded processed rest
      | some st =>
        if st.interaction.get_all_outcomes.any (fun o => isTerminalIn states o.dest) then
          true
        else
          bfsVisit states excluded (s :: processed)
            (enqueueDests st.interaction.get_all_outcomes (s :: processed) rest)
  termination_by processed queue => (unprocessedCount states excluded processed, queue.length)
  decreasing_by
  · exact Prod.Lex.right _ (Nat.lt_succ_self _)
  · exact Prod.Lex.right _ (Nat.lt_succ_self _)
  · exact Prod.Lex.right _ (Nat.lt_succ_self _)
  · apply Prod.Lex.left
    exact countP_notmem_lt _ _ _ s (fun x hx => List.mem_cons_of_mem _ hx)
      (List.mem_cons_self _ _) _hp (mem_keys_of_dictGet _hs)

/-- Termination measure of `_verify_all_states_reachable`: keys not yet
processed. -/
def unprocessedCountAll (states : List (String × State)) (processed : List String) : Nat :=
  (states.map Prod.fst).countP (fun k => decide (k ∉ processed))

/-- The forward breadth-first search of `_verify_all_states_reachable`,
returning the final `processed_queue`: expand every unseen popped name
(terminal states are recorded but not expanded). A missing key would raise
in Python right after the append; the `none` case keeps the append and
skips the expansion. -/
def bfsReachProcessed (states : List (String × State)) :
    (processed : List String) → (queue : List String) → List String
  | processed, [] => processed
  | processed, s :: rest =>
    if _hp : s ∈ processed then bfsReachProcessed states processed rest
    else
      match _hs : dictGet states s with
      | none => bfsReachProcessed states (processed ++ [s]) rest
      | some st =>
        if st.interaction.is_terminal then bfsReachProcessed states (processed ++ [s]) rest
        else
          bfsReachProcessed states (processed ++ [s])
            (enqueueDests st.interaction.get_all_outcomes (processed ++ [s]) rest)
  termination_by processed queue => (unprocessedCountAll states processed, queue.length)
  decreasing_by
  · exact Prod.Lex.right _ (Nat.lt_succ_self _)
  · have heq : unprocessedCountAll states (processed ++ [s]) =
        unprocessedCountAll states processed := by
      apply countP_notmem_congr
      intro x hx
      have hxs : x ≠ s := by
        intro h
        exact not_mem_keys_of_dictGet_none _hs (h ▸ hx)
      simp [List.mem_append, hxs]
    rw [heq]
    exact Prod.Lex.right _ (Nat.lt_succ_self _)
  · apply Prod.Lex.left
    exact countP_notmem_lt _ _ _ s (fun x hx => List.mem_append_left _ hx)
      (List.mem_append_right _ (List.mem_singleton.mpr rfl)) _hp (mem_keys_of_dictGet _hs)
  · apply Prod.Lex.left
    exact countP_notmem_lt _ _ _ s (fun x hx => List.mem_append_left _ hx)
      (List.mem_append_right _ (List.mem_singleton.mpr rfl)) _hp (mem_keys_of_dictGet _hs)

/-- The source-scan of `_verify_no_dead_ends`: append every state that has
an outcome edge into `target` and is in neither the current queue nor the
processed set. -/
def deadEndEnqueue (states : List (String × State)) (target : String)
    (processed : List String) (q : List String) : List String :=
  states.foldl (fun q p =>
    if p.1 ∈ q ∨ p.1 ∈ processed then q
    else if p.2.interaction.get_all_outcomes.any (fun o => o.dest = target) then q ++ [p.1]
    else q) q

/-- The backward breadth-first search of `_verify_no_dead_ends`, seeded with
the terminal states, returning the final `processed_queue`. Written with
explicit fuel: every productive iteration adds one new name to `processed`
and only state names enter the queue, so for queues drawn from state names
the loop stops well within `(|states|+1)^2` iterations (the caller's fuel). -/
def bfsDeadEndProcessed (states : List (String × State)) :
    Nat → List String → List String → List String
  | 0, processed, _ => processed
  | _ + 1, processed, [] => processed
  | fuel + 1, processed, s :: rest =>
    if s ∈ processed then bfsDeadEndProcessed states fuel processed rest
    else
      bfsDeadEndProcessed states fuel (processed ++ [s])
        (deadEndEnqueue states s (processed ++ [s]) rest)

/-- `_verify_all_states_reachable`: any state not visited by the forward
search is unreachable (the unseen names are joined into the message in dict
order; Python derives them from a set difference). -/
def verifyAllStatesReachable (e : Exploration) : Except String Unit :=
  let processed := bfsReachProcessed e.states [] [e.init_state_name]
  if e.states.length ≠ processed.length then
    .error ("The following states are not reachable from the initial state: "
      ++ String.intercalate ", " ((dictKeys e.states).filter (fun k => !processed.contains k)))
  else .ok ()

/-- `_verify_no_dead_ends`: any state never added by the backward search
cannot reach a terminal state. -/
def verifyNoDeadEnds (e : Exploration) : Except String Unit :=
  let seeds := (e.states.filter (fun p => p.2.interaction.is_terminal)).map Prod.fst
  let fuel := (e.states.length + 1) * (e.states.length + 1)
  let processed := bfsDeadEndProcessed e.states fuel [] seeds
  if e.states.length ≠ processed.length then
    .error ("It is impossible to complete the exploration from the following states: "
      ++ String.intercalate ", " ((dictKeys e.states).filter (fun k => !processed.contains k)))
  else .ok ()

/-- Strict check: the first state must be a checkpoint. (Python indexes
`self.states[self.init_state_name]` directly; a missing init node would
already have failed the structural pass, modelled here as the same error.) -/
def initCheckpointCheck (e : Exploration) : Except String Unit :=
  match dictGet e.states e.init_state_name with
  | some st =>
    if st.card_is_checkpoint then .ok ()
    else .error "Expected card_is_checkpoint of first state to be True but found it to be False"
  | none => .error "Expected card_is_checkpoint of first state to be True but found it to be False"

/-- Strict check: no terminal state other than the init node may be a
checkpoint (first offender in dict order raises). -/
def terminalCheckpointCheck (e : Exploration) : Except String Unit :=
  match e.states.find? (fun p =>
      p.2.interaction.is_terminal && (decide (p.1 ≠ e.init_state_name))
        && p.2.card_is_checkpoint) with
  | some _ =>
    .error "Expected card_is_checkpoint of terminal state to be False but found it to be True"
  | none => .ok ()

def checkpointCount (e : Exploration) : Nat :=
  (e.states.filter (fun p => p.2.card_is_checkpoint)).length

/-- Strict check: the checkpoint count must lie in [1, 8] inclusive. -/
def checkpointCountCheck (e : Exploration) : Except String Unit :=
  if 1 ≤ checkpointCount e ∧ checkpointCount e ≤ 8 then .ok ()
  else
    .error ("Expected checkpoint count to be between 1 and 8 inclusive but found it to be "
      ++ toString (checkpointCount e))

/-- The non-initial checkpoint states, in dict order. -/
def nonInitialCheckpointStateNames (e : Exploration) : List String :=
  (e.states.filter (fun p =>
    (decide (p.1 ≠ e.init_state_name)) && p.2.card_is_checkpoint)).map Prod.fst

/-- Strict check: for each non-initial checkpoint, run the bypassability
search and raise on the first bypassable one. -/
def checkpointBypassCheck (e : Exploration) : Except String Unit :=
  match (nonInitialCheckpointStateNames e).find?
      (fun c => bfsVisit e.states c [] [e.init_state_name]) with
  | some c => .error ("Cannot make " ++ c ++ " a checkpoint as it is bypassable")
  | none => .ok ()

def answerGroupsSelfLoopError (name : String) (st : State) : Option String :=
  if st.interaction.answer_groups.any
      (fun g => g.outcome.dest = name && g.outcome.labelled_as_correct) then
    some ("The outcome for an answer group in state " ++ name
      ++ " is labelled correct but is a self-loop.")
  else none

/-- Strict check: self-loop outcomes (default outcome first, then answer
groups) must not be labelled as correct. -/
def stateSelfLoopError (name : String) (st : State) : Option String :=
  match st.interaction.default_outcome with
  | some o =>
    if o.dest = name ∧ o.labelled_as_correct then
      some ("The default outcome for state " ++ name
        ++ " is labelled correct but is a self-loop.")
    else answerGroupsSelfLoopError name st
  | none => answerGroupsSelfLoopError name st

def selfLoopCorrectCheck (e : Exploration) : Except String Unit :=
  match e.states.findSome? (fun p => stateSelfLoopError p.1 p.2) with
  | some msg => .error msg
  | none => .ok ()

/-- The reachability / dead-end / metadata issues collected as warnings in
the strict block (in source order). -/
def strictWarnings (e : Exploration) : List String :=
  (match verifyAllStatesReachable e with | .error m => [m] | .ok _ => [])
    ++ (match verifyNoDeadEnds e with | .error m => [m] | .ok _ => [])
    ++ (if e.title = "" then ["A title must be specified (in the \x27Settings\x27 tab)."]
        else [])
    ++ (if e.category = "" then ["A category must be specified (in the \x27Settings\x27 tab)."]
        else [])
    ++ (if e.objective = "" then ["An objective must be specified (in the \x27Settings\x27 tab)."]
        else [])

def combineWarnings (ws : List String) : String :=
  "Please fix the following issues before saving this exploration: "
    ++ String.join (ws.enum.map (fun p => toString (p.1 + 1) ++ ". " ++ p.2 ++ " "))

/-- The strict block of `Exploration.validate` (lines guarded by
`if strict:`; the structural pass that precedes it is outside the claims):
hard checks raise immediately in source order, warning-style issues are
collected and raised combined at the end, after the self-loop-correctness
check. -/
def strictValidationChecks (e : Exploration) : Except String Unit := do
  initCheckpointCheck e
  terminalCheckpointCheck e
  checkpointCountCheck e
  checkpointBypassCheck e
  let ws := strictWarnings e
  selfLoopCorrectCheck e
  if ws.length > 0 then .error (combineWarnings ws) else .ok ()

theorem dictGet_dictRemove_ne {d : List (String × α)} {excluded s : String}
    (h : s ≠ excluded) : dictGet (dictRemove d excluded) s = dictGet d s := by
  induction d with
  | nil => rfl
  | cons p rest ih =>
    simp only [dictRemove]
    by_cases hk : excluded = p.1
    · rw [if_pos hk]
      simp only [dictGet]
      rw [if_neg (fun hs => h (hs.trans hk.symm))]
    · rw [if_neg hk]
      simp only [dictGet]
      by_cases hs : s = p.1
      · simp [hs]
      · simp [hs, ih]

/-- Spec-level statement of "a terminal node is reachable from `s` by
following all outcome edges while skipping the excluded checkpoint": a chain
of outcome edges through states distinct from the excluded one ends at a
state one of whose outcome destinations is terminal. -/
inductive ReachesTerminal (states : List (String × State)) (excluded : String) : String → Prop
  | direct {s : String} {st : State} {o : Outcome} :
      s ≠ excluded → dictGet states s = some st →
      o ∈ st.interaction.get_all_outcomes → isTerminalIn states o.dest = true →
      ReachesTerminal states excluded s
  | step {s : String} {st : State} {o : Outcome} :
      s ≠ excluded → dictGet states s = some st →
      o ∈ st.interaction.get_all_outcomes → ReachesTerminal states excluded o.dest →
      ReachesTerminal states excluded s

theorem ReachesTerminal.ne_excluded {states : List (String × State)} {excluded x : String}
    (h : ReachesTerminal states excluded x) : x ≠ excluded := by
  cases h with
  | direct hne _ _ _ => exact hne
  | step hne _ _ _ => exact hne

theorem ReachesTerminal.dictGet_isSome {states : List (String × State)} {excluded x : String}
    (h : ReachesTerminal states excluded x) : (dictGet states x).isSome := by
  cases h with
  | direct _ hget _ _ => simp [hget]
  | step _ hget _ _ => simp [hget]

/-- A set of names closed under non-terminal outcome edges and free of
terminal destinations contains no state from which a terminal destination is
reachable. -/
theorem no_reach_of_closed (states : List (String × State)) (excluded : String)
    (P : List String)
    (hcl : ∀ p ∈ P, ∀ st, dictGet (dictRemove states excluded) p = some st →
      ∀ o ∈ st.interaction.get_all_outcomes,
        isTerminalIn states o.dest = false ∧
          (o.dest = excluded ∨ o.dest ∈ P ∨ dictGet states o.dest = none)) :
    ∀ x, ReachesTerminal states excluded x → x ∈ P → False := by
  intro x hx
  induction hx with
  | direct hne hget hmem hterm =>
    intro hxP
    have hget' : dictGet (dictRemove states excluded) _ = some _ :=
      (dictGet_dictRemove_ne hne).trans hget
    have := (hcl _ hxP _ hget' _ hmem).1
    rw [hterm] at this
    exact Bool.true_eq_false.mp this
  | step hne hget hmem hreach ih =>
    intro hxP
    have hget' : dictGet (dictRemove states excluded) _ = some _ :=
      (dictGet_dictRemove_ne hne).trans hget
    rcases (hcl _ hxP _ hget' _ hmem).2 with hd | hd | hd
    · exact hreach.ne_excluded hd
    · exact ih hd
    · have := hreach.dictGet_isSome
      rw [hd] at this
      simp at this

theorem enqueueDests_mono {outs : List Outcome} {P q : List String} {x : String}
    (h : x ∈ q) : x ∈ enqueueDests outs P q := by
  induction outs generalizing q with
  | nil => exact h
  | cons o t ih =>
    simp only [enqueueDests, List.foldl_cons]
    apply ih
    by_cases hc : o.dest ∈ q ∨ o.dest ∈ P
    · simpa [hc] using h
    · simp only [hc, if_false]
      exact List.mem_append_left _ h

theorem enqueueDests_covers {outs : List Outcome} {P q : List String} {o : Outcome}
    (h : o ∈ outs) : o.dest ∈ enqueueDests outs P q ∨ o.dest ∈ P := by
  induction outs generalizing q with
  | nil => cases h
  | cons a t ih =>
    simp only [enqueueDests, List.foldl_cons]
    rcases List.mem_cons.mp h with h | h
    · subst h
      by_cases hc : o.dest ∈ q ∨ o.dest ∈ P
      · rcases hc with hc | hc
        · exact Or.inl (by
            have : o.dest ∈ (if o.dest ∈ q ∨ o.dest ∈ P then q else q ++ [o.dest]) := by
              simp [Or.inl hc, hc]
            exact enqueueDests_mono this)
        · exact Or.inr hc
      · refine Or.inl (enqueueDests_mono ?_)
        simp only [hc, if_false]
        exact List.mem_append_right _ (List.mem_singleton.mpr rfl)
    · exact ih h

theorem bfsVisit_nil {states : List (String × State)} {excluded : String}
    {processed : List String} : bfsVisit states excluded processed [] = false := by
  simp [bfsVisit]

theorem bfsVisit_excluded {states : List (String × State)} {excluded : String}
    {processed rest : List String} :
    bfsVisit states excluded processed (excluded :: rest) =
      bfsVisit states excluded processed rest := by
  rw [bfsVisit]
  simp

theorem bfsVisit_processed {states : List (String × State)} {excluded s : String}
    {processed rest : List String} (hs : ¬s = excluded) (hp : s ∈ processed) :
    bfsVisit states excluded processed (s :: rest) =
      bfsVisit states excluded processed rest := by
  rw [bfsVisit]
  simp [hs, hp]

theorem bfsVisit_missing {states : List (String × State)} {excluded s : String}
    {processed rest : List String} (hs : ¬s = excluded) (hp : s ∉ processed)
    (hg : dictGet (dictRemove states excluded) s = none) :
    bfsVisit states excluded processed (s :: rest) =
      bfsVisit states excluded processed rest := by
  rw [bfsVisit, if_neg hs, dif_neg hp]
  split
  · rfl
  · rename_i st' heq
    rw [hg] at heq
    cases heq

theorem bfsVisit_found_terminal {states : List (String × State)} {excluded s : String}
    {processed rest : List String} {st : State} (hs : ¬s = excluded) (hp : s ∉ processed)
    (hg : dictGet (dictRemove states excluded) s = some st)
    (ht : (st.interaction.get_all_outcomes.any fun o => isTerminalIn states o.dest) = true) :
    bfsVisit states excluded processed (s :: rest) = true := by
  rw [bfsVisit, if_neg hs, dif_neg hp]
  split
  · rename_i heq
    rw [hg] at heq
    cases heq
  · rename_i st' heq
    rw [hg] at heq
    injection heq with h
    subst h
    rw [if_pos ht]

theorem bfsVisit_expand {states : List (String × State)} {excluded s : String}
    {processed rest : List String} {st : State} (hs : ¬s = excluded) (hp : s ∉ processed)
    (hg : dictGet (dictRemove states excluded) s = some st)
    (ht : ¬(st.interaction.get_all_outcomes.any fun o => isTerminalIn states o.dest) = true) :
    bfsVisit states excluded processed (s :: rest) =
      bfsVisit states excluded (s :: processed)
        (enqueueDests st.interaction.get_all_outcomes (s :: processed) rest) := by
  rw [bfsVisit, if_neg hs, dif_neg hp]
  split
  · rename_i heq
    rw [hg] at heq
    cases heq
  · rename_i st' heq
    rw [hg] at heq
    injection heq with h
    subst h
    rw [if_neg ht]

/-- Invariant of the bypassability search along a run that has not (yet)
found a terminal destination: every processed state has no terminal
destination, and each of its destinations is the excluded checkpoint,
already processed, still queued, or absent from the graph. -/
def BfsInv (states : List (String × State)) (excluded : String)
    (processed queue : List String) : Prop :=
  ∀ p ∈ processed, ∀ st, dictGet (dictRemove states excluded) p = some st →
    ∀ o ∈ st.interaction.get_all_outcomes,
      isTerminalIn states o.dest = false ∧
        (o.dest = excluded ∨ o.dest ∈ processed ∨ o.dest ∈ queue ∨
          dictGet states o.dest = none)

theorem BfsInv_tail {states : List (String × State)} {excluded s : String}
    {processed rest : List String}
    (h : BfsInv states excluded processed (s :: rest))
    (hcase : s = excluded ∨ s ∈ processed ∨ dictGet states s = none) :
    BfsInv states excluded processed rest := by
  intro p hp st hg o ho
  rcases h p hp st hg o ho with ⟨h1, h2⟩
  refine ⟨h1, ?_⟩
  rcases h2 with h2 | h2 | h2 | h2
  · exact Or.inl h2
  · exact Or.inr (Or.inl h2)
  · rcases List.mem_cons.mp h2 with h2 | h2
    · subst h2
      rcases hcase with hc | hc | hc
      · exact Or.inl hc
      · exact Or.inr (Or.inl hc)
      · exact Or.inr (Or.inr (Or.inr hc))
    · exact Or.inr (Or.inr (Or.inl h2))
  · exact Or.inr (Or.inr (Or.inr h2))

theorem BfsInv_expand {states : List (String × State)} {excluded s : String}
    {processed rest : List String} {st : State}
    (h : BfsInv states excluded processed (s :: rest))
    (hg : dictGet (dictRemove states excluded) s = some st)
    (hterm : ∀ o ∈ st.interaction.get_all_outcomes, isTerminalIn states o.dest = false) :
    BfsInv states excluded (s :: processed)
      (enqueueDests st.interaction.get_all_outcomes (s :: processed) rest) := by
  intro p hp st' hg' o ho
  rcases List.mem_cons.mp hp with hp | hp
  · subst hp
    rw [hg] at hg'
    injection hg' with h'
    subst h'
    refine ⟨hterm o ho, ?_⟩
    rcases enqueueDests_covers (q := rest) ho with hd | hd
    · exact Or.inr (Or.inr (Or.inl hd))
    · exact Or.inr (Or.inl hd)
  · rcases h p hp st' hg' o ho with ⟨h1, h2⟩
    refine ⟨h1, ?_⟩
    rcases h2 with h2 | h2 | h2 | h2
    · exact Or.inl h2
    · exact Or.inr (Or.inl (List.mem_cons_of_mem _ h2))
    · rcases List.mem_cons.mp h2 with h2 | h2
      · exact Or.inr (Or.inl (h2 ▸ List.mem_cons_self _ _))
      · exact Or.inr (Or.inr (Or.inl (enqueueDests_mono h2)))
    · exact Or.inr (Or.inr (Or.inr h2))

/-- Completeness of the bypassability search: if the search returns `false`
while the invariant holds, then no name in the queue or in the processed set
reaches a terminal destination while avoiding the excluded checkpoint. -/
theorem bfsVisit_false_no_reach (states : List (String × State)) (excluded : String)
    (processed queue : List String) :
    bfsVisit states excluded processed queue = false →
    BfsInv states excluded processed queue →
    ∀ x, (x ∈ queue ∨ x ∈ processed) → ReachesTerminal states excluded x → False := by
  induction processed, queue using bfsVisit.induct states excluded with
  | case1 processed =>
    intro _ hinv x hx hreach
    rcases hx with hx | hx
    · cases hx
    · refine no_reach_of_closed states excluded processed ?_ x hreach hx
      intro p hp st hg o ho
      rcases hinv p hp st hg o ho with ⟨h1, h2⟩
      refine ⟨h1, ?_⟩
      rcases h2 with h | h | h | h
      · exact Or.inl h
      · exact Or.inr (Or.inl h)
      · cases h
      · exact Or.inr (Or.inr h)
  | case2 processed rest ih =>
    intro hfalse hinv x hx hreach
    rw [bfsVisit_excluded] at hfalse
    have hinv' := BfsInv_tail hinv (Or.inl rfl)
    rcases hx with hx | hx
    · rcases List.mem_cons.mp hx with hx | hx
      · exact hreach.ne_excluded hx
      · exact ih hfalse hinv' x (Or.inl hx) hreach
    · exact ih hfalse hinv' x (Or.inr hx) hreach
  | case3 processed s rest hs hp ih =>
    intro hfalse hinv x hx hreach
    rw [bfsVisit_processed hs hp] at hfalse
    have hinv' := BfsInv_tail hinv (Or.inr (Or.inl hp))
    rcases hx with hx | hx
    · rcases List.mem_cons.mp hx with hx | hx
      · exact ih hfalse hinv' x (Or.inr (hx ▸ hp)) hreach
      · exact ih hfalse hinv' x (Or.inl hx) hreach
    · exact ih hfalse hinv' x (Or.inr hx) hreach
  | case4 processed s rest hs hp hg ih =>
    intro hfalse hinv x hx hreach
    rw [bfsVisit_missing hs hp hg] at hfalse
    have hgs : dictGet states s = none := (dictGet_dictRemove_ne hs).symm.trans hg
    have hinv' := BfsInv_tail hinv (Or.inr (Or.inr hgs))
    rcases hx with hx | hx
    · rcases List.mem_cons.mp hx with hx | hx
      · subst hx
        have := hreach.dictGet_isSome
        rw [hgs] at this
        simp at this
      · exact ih hfalse hinv' x (Or.inl hx) hreach
    · exact ih hfalse hinv' x (Or.inr hx) hreach
  | case5 processed s rest hs hp st hg ht =>
    intro hfalse _ _ _ _
    rw [bfsVisit_found_terminal hs hp hg ht] at hfalse
    cases hfalse
  | case6 processed s rest hs hp st hg ht ih =>
    intro hfalse hinv x hx hreach
    rw [bfsVisit_expand hs hp hg ht] at hfalse
    have hterm : ∀ o ∈ st.interaction.get_all_outcomes,
        isTerminalIn states o.dest = false := by
      intro o ho
      cases hcase : isTerminalIn states o.dest
      · rfl
      · exact absurd (List.any_eq_true.mpr ⟨o, ho, hcase⟩) ht
    have hinv' := BfsInv_expand hinv hg hterm
    rcases hx with hx | hx
    · rcases List.mem_cons.mp hx with hx | hx
      · exact ih hfalse hinv' x (Or.inr (hx ▸ List.mem_cons_self _ _)) hreach
      · exact ih hfalse hinv' x (Or.inl (enqueueDests_mono hx)) hreach
    · exact ih hfalse hinv' x (Or.inr (List.mem_cons_of_mem _ hx)) hreach

/-- If a terminal destination is reachable from `init` avoiding `excluded`,
the bypassability search started at `init` finds it. -/
theorem bfsVisit_true_of_reach (states : List (String × State)) (excluded init : String)
    (h : ReachesTerminal states excluded init) :
    bfsVisit states excluded [] [init] = true := by
  cases hb : bfsVisit states excluded [] [init] with
  | true => rfl
  | false =>
    exact absurd h (fun hr =>
      bfsVisit_false_no_reach states excluded [] [init] hb
        (fun p hp => absurd hp (List.not_mem_nil p))
        init (Or.inl (List.mem_singleton.mpr rfl)) hr)

theorem pair_mem_of_dictGet {d : List (String × α)} {k : String} {v : α}
    (h : dictGet d k = some v) : (k, v) ∈ d := by
  induction d with
  | nil => cases h
  | cons p rest ih =>
    simp only [dictGet] at h
    by_cases hk : k = p.1
    · rw [if_pos hk] at h
      injection h with h
      have hp : p = (k, v) := by
        cases p
        simp_all
      rw [hp]
      exact List.mem_cons_self _ _
    · rw [if_neg hk] at h
      exact List.mem_cons_of_mem _ (ih h)

theorem strict_error_of_count (e : Exploration)
    (h : ∃ m, checkpointCountCheck e = .error m) :
    ∃ m, strictValidationChecks e = .error m := by
  obtain ⟨mc, hc⟩ := h
  cases h1 : initCheckpointCheck e with
  | error m => exact ⟨m, by simp only [strictValidationChecks, h1]; rfl⟩
  | ok u =>
    cases h2 : terminalCheckpointCheck e with
    | error m => exact ⟨m, by simp only [strictValidationChecks, h1, h2]; rfl⟩
    | ok v => exact ⟨mc, by simp only [strictValidationChecks, h1, h2, hc]; rfl⟩

theorem strict_error_of_bypass (e : Exploration)
    (h : ∃ m, checkpointBypassCheck e = .error m) :
    ∃ m, strictValidationChecks e = .error m := by
  obtain ⟨mb, hb⟩ := h
  cases h1 : initCheckpointCheck e with
  | error m => exact ⟨m, by simp only [strictValidationChecks, h1]; rfl⟩
  | ok u =>
    cases h2 : terminalCheckpointCheck e with
    | error m => exact ⟨m, by simp only [strictValidationChecks, h1, h2]; rfl⟩
    | ok v =>
      cases h3 : checkpointCountCheck e with
      | error m => exact ⟨m, by simp only [strictValidationChecks, h1, h2, h3]; rfl⟩
      | ok w => exact ⟨mb, by simp only [strictValidationChecks, h1, h2, h3, hb]; rfl⟩

/-- A plain outcome edge to `d`. -/
def outcomeTo (d : String) : Outcome :=
  { dest := d, refresher_exploration_id := none, labelled_as_correct := false }

def groupTo (d : String) : AnswerGroup := { outcome := outcomeTo d }

def plainState (groups : List AnswerGroup) (terminal checkpoint : Bool) : State :=
  { content_html := ""
    interaction :=
      { id := some (if terminal then "EndExploration" else "TextInput")
        answer_groups := groups
        default_outcome := none
        is_terminal := terminal }
    card_is_checkpoint := checkpoint
    solicit_answer_details := false }

/-- The spec's bypassable-checkpoint example: Init→A(checkpoint)→Terminal
plus a direct edge Init→Terminal. -/
def exampleBypassGraph : Exploration :=
  { states :=
      [("Init", plainState [groupTo "A", groupTo "Terminal"] false true),
       ("A", plainState [groupTo "Terminal"] false true),
       ("Terminal", plainState [] true false)]
    init_state_name := "Init", title := "t", category := "c", objective := "o" }

/-- `Exploration.add_states` in explicit state-passing form: the first loop
checks every requested name against the states dict (mutating nothing) and
raises at the first duplicate; only when all names are fresh does the second
loop insert the default states. The returned pair is (raised error, final
states dict). -/
def addStatesExec (states0 : List (String × State)) (state_names : List String) :
    Option String × List (String × State) :=
  match state_names.find? (fun n => (dictGet states0 n).isSome) with
  | some n => (some ("Duplicate state name " ++ n), states0)
  | none =>
    (none, state_names.foldl (fun d n => dictSet d n (State.createDefault n)) states0)

/-- C4: under strict validation, for every node `c` flagged as a checkpoint
and distinct from the init node, if a terminal node is reachable from the
init node following all outcome edges while skipping `c`, then the
bypassability check fails and strict validation fails. -/
theorem bypassable_checkpoint_fails_strict_validation (e : Exploration) (c : String)
    (st : State) (hst : dictGet e.states c = some st)
    (hflag : st.card_is_checkpoint = true) (hne : c ≠ e.init_state_name)
    (hreach : ReachesTerminal e.states c e.init_state_name) :
    (∃ msg, checkpointBypassCheck e = .error msg) ∧
      ∃ msg, strictValidationChecks e = .error msg := by
  have hmemfilter : (c, st) ∈ e.states.filter
      (fun p => (decide (p.1 ≠ e.init_state_name)) && p.2.card_is_checkpoint) := by
    apply List.mem_filter.mpr
    exact ⟨pair_mem_of_dictGet hst, by simp [hne, hflag]⟩
  have hmem : c ∈ nonInitialCheckpointStateNames e := by
    unfold nonInitialCheckpointStateNames
    exact List.mem_map.mpr ⟨(c, st), hmemfilter, rfl⟩
  have hbfs : bfsVisit e.states c [] [e.init_state_name] = true :=
    bfsVisit_true_of_reach _ _ _ hreach
  have hfind : ((nonInitialCheckpointStateNames e).find?
      (fun x => bfsVisit e.states x [] [e.init_state_name])).isSome := by
    rw [List.find?_isSome]
    exact ⟨c, hmem, hbfs⟩
  obtain ⟨y, hy⟩ := Option.isSome_iff_exists.mp hfind
  have hbp : checkpointBypassCheck e =
      .error ("Cannot make " ++ y ++ " a checkpoint as it is bypassable") := by
    unfold checkpointBypassCheck
    rw [hy]
  exact ⟨⟨_, hbp⟩, strict_error_of_bypass e ⟨_, hbp⟩⟩

/-- C4 witness: the spec's concrete graph Init→A(checkpoint)→Terminal with
the direct edge Init→Terminal fails strict validation, via the theorem. -/
theorem bypassable_checkpoint_fails_strict_validation_witness :
    ∃ msg, strictValidationChecks exampleBypassGraph = .error msg :=
  (bypassable_checkpoint_fails_strict_validation exampleBypassGraph "A"
      (plainState [groupTo "Terminal"] false true) (by decide) (by decide) (by decide)
      (@ReachesTerminal.direct exampleBypassGraph.states "A" "Init"
        (plainState [groupTo "A", groupTo "Terminal"] false true)
        (outcomeTo "Terminal") (by decide) (by decide) (by decide) (by decide))).2

/-- C8: under strict validation, a checkpoint count outside [1, 8] makes
strict validation fail, and a count within [1, 8] passes the
checkpoint-count check. -/
theorem checkpoint_count_bound (e : Exploration) :
    (¬(1 ≤ checkpointCount e ∧ checkpointCount e ≤ 8) →
      ∃ msg, strictValidationChecks e = .error msg) ∧
    ((1 ≤ checkpointCount e ∧ checkpointCount e ≤ 8) →
      checkpointCountCheck e = .ok ()) := by
  constructor
  · intro h
    have hcc : checkpointCountCheck e =
        .error ("Expected checkpoint count to be between 1 and 8 inclusive but found it to be "
          ++ toString (checkpointCount e)) := by
      unfold checkpointCountCheck
      rw [if_neg h]
    exact strict_error_of_count e ⟨_, hcc⟩
  · intro h
    unfold checkpointCountCheck
    rw [if_pos h]

/-- A single-state graph with no checkpoint at all (count 0). -/
def exampleNoCheckpointGraph : Exploration :=
  { states := [("Init", plainState [] true false)]
    init_state_name := "Init", title := "t", category := "c", objective := "o" }

/-- C8 witness: count 0 fails strict validation; the two-checkpoint example
graph passes the checkpoint-count check. -/
theorem checkpoint_count_bound_witness :
    (∃ msg, strictValidationChecks exampleNoCheckpointGraph = .error msg) ∧
      checkpointCountCheck exampleBypassGraph = .ok () :=
  ⟨(checkpoint_count_bound exampleNoCheckpointGraph).1 (by decide),
    (checkpoint_count_bound exampleBypassGraph).2 (by decide)⟩

theorem dictGet_eq_none_of_not_mem {d : List (String × α)} {k : String}
    (h : k ∉ d.map Prod.fst) : dictGet d k = none := by
  induction d with
  | nil => rfl
  | cons p rest ih =>
    simp only [List.map_cons, List.mem_cons] at h
    push_neg at h
    simp only [dictGet, if_neg h.1]
    exact ih h.2

theorem dictGet_dictRemove_self {d : List (String × α)} {k : String}
    (h : (d.map Prod.fst).Nodup) : dictGet (dictRemove d k) k = none := by
  induction d with
  | nil => rfl
  | cons p rest ih =>
    rw [List.map_cons, List.nodup_cons] at h
    simp only [dictRemove]
    by_cases hk : k = p.1
    · rw [if_pos hk]
      exact dictGet_eq_none_of_not_mem (hk ▸ h.1)
    · rw [if_neg hk]
      simp only [dictGet, if_neg hk]
      exact ih h.2

theorem dictGet_map {d : List (String × α)} (f : String → α → β) (k : String) :
    dictGet (d.map (fun p => (p.1, f p.1 p.2))) k = (dictGet d k).map (f k) := by
  induction d with
  | nil => rfl
  | cons p rest ih =>
    simp only [List.map_cons, dictGet]
    by_cases hk : k = p.1
    · simp [hk]
    · simp [hk, ih]

theorem dictKeys_map (d : List (String × α)) (f : String → α → β) :
    dictKeys (d.map (fun p => (p.1, f p.1 p.2))) = dictKeys d := by
  simp [dictKeys, List.map_map]

/-- C7: `delete_state(name)` fails with a not-found error when `name` is
absent, fails with an invalid-operation error when `name` is the init node,
and on success every outcome in every remaining state whose destination was
`name` is rewritten to a self-loop on its containing state, and no state
named `name` remains. -/
theorem deleteState_spec (e : Exploration) (name : String)
    (hnodup : (dictKeys e.states).Nodup) :
    (dictGet e.states name = none →
      deleteState e name = .error ("State " ++ name ++ " does not exist")) ∧
    ((dictGet e.states name).isSome → e.init_state_name = name →
      deleteState e name = .error "Cannot delete initial state of an exploration.") ∧
    ((dictGet e.states name).isSome → e.init_state_name ≠ name →
      ∃ g, deleteState e name = .ok g ∧
        dictGet g.states name = none ∧
        g.init_state_name = e.init_state_name ∧
        ∀ n stN, n ≠ name → dictGet e.states n = some stN →
          dictGet g.states n = some (stN.retargetDests name n)) := by
  refine ⟨fun habs => ?_, fun hpres hinit => ?_, fun hpres hinit => ?_⟩
  · unfold deleteState
    rw [if_pos (by simp [habs])]
  · obtain ⟨v, hv⟩ := Option.isSome_iff_exists.mp hpres
    simp [deleteState, hv, hinit]
  · obtain ⟨v, hv⟩ := Option.isSome_iff_exists.mp hpres
    refine ⟨Exploration.mk
        (dictRemove (e.states.map (fun p => (p.1, p.2.retargetDests name p.1))) name)
        e.init_state_name e.title e.category e.objective, ?_, ?_, rfl, ?_⟩
    · simp [deleteState, hv, hinit]
    · have hkeys : ((e.states.map (fun p => (p.1, p.2.retargetDests name p.1))).map
          Prod.fst).Nodup := by
        have hk := dictKeys_map e.states (fun k st => st.retargetDests name k)
        unfold dictKeys at hk
        rw [hk]
        exact hnodup
      exact dictGet_dictRemove_self hkeys
    · intro n stN hne hget
      show dictGet (dictRemove (e.states.map (fun p => (p.1, p.2.retargetDests name p.1))) name) n
          = some (stN.retargetDests name n)
      rw [dictGet_dictRemove_ne hne,
        dictGet_map (fun k (st : State) => st.retargetDests name k) n, hget]
      rfl

/-- The spec's delete example: nodes {X, Y, Z}, X init, edge Y→Z. -/
def exampleDeleteGraph : Exploration :=
  { states :=
      [("X", plainState [] false true),
       ("Y", plainState [groupTo "Z"] false false),
       ("Z", plainState [] true false)]
    init_state_name := "X", title := "t", category := "c", objective := "o" }

/-- C7 witness: deleting Z from {X, Y, Z} with edge Y→Z succeeds, Z is gone
and Y's outcome is rewritten to the self-loop Y→Y. -/
theorem deleteState_spec_witness :
    ∃ g, deleteState exampleDeleteGraph "Z" = .ok g ∧
      dictGet g.states "Z" = none ∧
      g.init_state_name = exampleDeleteGraph.init_state_name ∧
      ∀ n stN, n ≠ "Z" → dictGet exampleDeleteGraph.states n = some stN →
        dictGet g.states n = some (stN.retargetDests "Z" n) :=
  (deleteState_spec exampleDeleteGraph "Z" (by decide)).2.2 (by decide) (by decide)

/-- C10: `add_states` is atomic with respect to failure — the check loop
runs over all requested names before any insertion, so when some name is
already present the call raises the duplicate-name error and the states
dict is returned entirely unchanged. -/
theorem addStates_atomic (states0 : List (String × State)) (names : List String)
    (h : ∃ n ∈ names, (dictGet states0 n).isSome) :
    ∃ d, d ∈ names ∧ (dictGet states0 d).isSome ∧
      addStatesExec states0 names = (some ("Duplicate state name " ++ d), states0) := by
  have hfind : (names.find? (fun n => (dictGet states0 n).isSome)).isSome := by
    rw [List.find?_isSome]
    obtain ⟨n, hn, hs⟩ := h
    exact ⟨n, hn, hs⟩
  obtain ⟨d, hd⟩ := Option.isSome_iff_exists.mp hfind
  have hmem : d ∈ names := List.mem_of_find?_eq_some hd
  have hsome := List.find?_some hd
  refine ⟨d, hmem, hsome, ?_⟩
  unfold addStatesExec
  rw [hd]

/-- C10 witness: adding ["B", "X"] to a graph that already has "X" raises
the duplicate error for "X" and leaves the states dict unchanged. -/
theorem addStates_atomic_witness :
    ∃ d, d ∈ ["B", "X"] ∧ (dictGet exampleDeleteGraph.states d).isSome ∧
      addStatesExec exampleDeleteGraph.states ["B", "X"] =
        (some ("Duplicate state name " ++ d), exampleDeleteGraph.states) :=
  addStates_atomic exampleDeleteGraph.states ["B", "X"]
    ⟨"X", by decide, by decide⟩

theorem dictGet_dictSet (d : List (String × α)) (k : String) (v : α) (q : String) :
    dictGet (dictSet d k v) q = if q = k then some v else dictGet d q := by
  induction d with
  | nil => rfl
  | cons p rest ih =>
    simp only [dictSet]
    by_cases hka : k = p.1
    · rw [if_pos hka]
      simp only [dictGet]
      by_cases hq : q = k
      · rw [if_pos hq, if_pos hq]
      · rw [if_neg hq, if_neg hq, if_neg (fun h => hq (h.trans hka.symm))]
    · rw [if_neg hka]
      simp only [dictGet]
      by_cases hq : q = p.1
      · rw [if_pos hq, if_neg (fun h => hka (h.symm.trans hq)), if_pos hq]
      · rw [if_neg hq, ih]
        by_cases hqk : q = k
        · rw [if_pos hqk, if_pos hqk]
        · rw [if_neg hqk, if_neg hqk, if_neg hq]

theorem dictKeys_dictSet_not_mem {d : List (String × α)} {k : String} (v : α)
    (h : dictGet d k = none) : dictKeys (dictSet d k v) = dictKeys d ++ [k] := by
  induction d with
  | nil => rfl
  | cons p rest ih =>
    simp only [dictGet] at h
    by_cases hk : k = p.1
    · rw [if_pos hk] at h
      cases h
    · rw [if_neg hk] at h
      simp only [dictSet, if_neg hk, dictKeys, List.map_cons]
      unfold dictKeys at ih
      rw [ih h]
      simp

theorem dictKeys_dictRemove_sublist (d : List (String × α)) (k : String) :
    (dictKeys (dictRemove d k)).Sublist (dictKeys d) := by
  induction d with
  | nil => simp [dictRemove, dictKeys]
  | cons p rest ih =>
    simp only [dictRemove]
    by_cases hk : k = p.1
    · rw [if_pos hk]
      exact (List.sublist_cons_self _ _)
    · rw [if_neg hk]
      simp only [dictKeys, List.map_cons]
      exact List.Sublist.cons₂ _ ih

theorem dictKeys_setCheckpointFlag (d : List (String × State)) (name : String) (b : Bool) :
    dictKeys (setCheckpointFlag d name b) = dictKeys d := by
  induction d with
  | nil => rfl
  | cons p rest ih =>
    simp only [setCheckpointFlag, dictKeys, List.map_cons] at *
    by_cases hp : p.1 = name
    · rw [if_pos hp]
      simpa using ih
    · rw [if_neg hp]
      simpa using ih

theorem dictGet_setCheckpointFlag (d : List (String × State)) (name k : String) (b : Bool) :
    dictGet (setCheckpointFlag d name b) k =
      (dictGet d k).map
        (fun st => if k = name then { st with card_is_checkpoint := b } else st) := by
  induction d with
  | nil => rfl
  | cons p rest ih =>
    simp only [setCheckpointFlag, List.map_cons] at *
    by_cases hp : p.1 = name
    · rw [if_pos hp]
      simp only [dictGet]
      by_cases hk : k = p.1
      · rw [if_pos hk, if_pos hk]
        simp [hk, hp]
      · rw [if_neg hk, if_neg hk, ih]
    · rw [if_neg hp]
      simp only [dictGet]
      by_cases hk : k = p.1
      · rw [if_pos hk, if_pos hk]
        have hkn : ¬ k = name := fun h => hp (hk ▸ h)
        simp [hkn]
      · rw [if_neg hk, if_neg hk, ih]

theorem Outcome.retarget_roundtrip (o : Outcome) (a b : String) (h : o.dest ≠ b) :
    (o.retarget a b).retarget b a = o := by
  by_cases hd : o.dest = a
  · cases o with
    | mk dst re lc =>
      simp only at hd
      subst hd
      simp [Outcome.retarget]
  · simp [Outcome.retarget, hd, h]

theorem list_map_self {l : List γ} {f : γ → γ} (h : ∀ x ∈ l, f x = x) : l.map f = l := by
  induction l with
  | nil => rfl
  | cons a t ih =>
    simp only [List.map_cons]
    rw [h a (List.mem_cons_self _ _), ih (fun x hx => h x (List.mem_cons_of_mem _ hx))]

theorem option_map_self {o : Option γ} {f : γ → γ} (h : ∀ x, o = some x → f x = x) :
    o.map f = o := by
  cases o with
  | none => rfl
  | some x => simp [h x rfl]

theorem State.retargetDests_roundtrip (st : State) (a b : String)
    (h : ∀ o ∈ st.interaction.get_all_outcomes, o.dest ≠ b) :
    (st.retargetDests a b).retargetDests b a = st := by
  have hgb : ∀ g ∈ st.interaction.answer_groups, g.outcome.dest ≠ b := by
    intro g hg
    apply h
    unfold Interaction.get_all_outcomes
    exact List.mem_append_left _ (List.mem_map.mpr ⟨g, hg, rfl⟩)
  have hdb : ∀ o, st.interaction.default_outcome = some o → o.dest ≠ b := by
    intro o ho
    apply h
    unfold Interaction.get_all_outcomes
    refine List.mem_append_right _ ?_
    simp [ho]
  cases st with
  | mk content interaction flag solicit =>
    cases interaction with
    | mk iid groups default terminal =>
      simp only [State.retargetDests, List.map_map, Option.map_map, State.mk.injEq,
        Interaction.mk.injEq, true_and, and_true]
      constructor
      · apply list_map_self
        intro g hg
        simp only [Function.comp]
        cases g with
        | mk o =>
          simp only [AnswerGroup.mk.injEq]
          exact Outcome.retarget_roundtrip o a b (hgb ⟨o⟩ hg)
      · apply option_map_self
        intro o ho
        simp only [Function.comp]
        exact Outcome.retarget_roundtrip o a b (hdb o ho)

theorem State.retargetDests_card (st : State) (a b : String) :
    (st.retargetDests a b).card_is_checkpoint = st.card_is_checkpoint := rfl

theorem State.set_flag_already (st : State) (h : st.card_is_checkpoint = true) :
    { st with card_is_checkpoint := true } = st := by
  cases st
  simp_all

theorem State.retargetDests_flag (st : State) (a c : String) (b : Bool) :
    State.retargetDests { st with card_is_checkpoint := b } a c =
      { st.retargetDests a c with card_is_checkpoint := b } := rfl

/-- The value that ends up under the original key after renaming an
init-checkpoint node away and back: both forced flag-sets are absorbed and
the two dest rewrites cancel. -/
theorem State.flag_retarget_roundtrip (st : State) (a b : String)
    (hd : ∀ o ∈ st.interaction.get_all_outcomes, o.dest ≠ b)
    (hf : st.card_is_checkpoint = true) :
    ({ (({ st with card_is_checkpoint := true } : State).retargetDests a b) with
       card_is_checkpoint := true } : State).retargetDests b a = st := by
  have h1 : ({ st with card_is_checkpoint := true } : State) = st :=
    State.set_flag_already st hf
  rw [h1]
  have h2 : ({ st.retargetDests a b with card_is_checkpoint := true } : State)
      = st.retargetDests a b := by
    apply State.set_flag_already
    rw [State.retargetDests_card]
    exact hf
  rw [h2]
  exact State.retargetDests_roundtrip st a b hd

/-- A successful `rename_state(X, Y)` characterized by lookups: the node
moves to key `Y` (its checkpoint flag forced when `X` was the init node),
key `X` disappears, every other node keeps its place with dests `X`
rewritten to `Y`, and the init designation follows the rename. -/
theorem renameState_ok_spec (g : Exploration) (X Y : String) (stX : State)
    (hX : dictGet g.states X = some stX) (hY : dictGet g.states Y = none)
    (hnodup : (g.states.map Prod.fst).Nodup) :
    ∃ g', renameState g X Y = .ok g' ∧
      g'.title = g.title ∧ g'.category = g.category ∧ g'.objective = g.objective ∧
      g'.init_state_name = (if g.init_state_name = X then Y else g.init_state_name) ∧
      (g'.states.map Prod.fst).Nodup ∧
      ∀ n, dictGet g'.states n =
        if n = Y then
          some ((if g.init_state_name = X then
            { stX with card_is_checkpoint := true } else stX).retargetDests X Y)
        else if n = X then none
        else (dictGet g.states n).map (fun st => st.retargetDests X Y) := by
  have hXY : X ≠ Y := fun h => by rw [h, hY] at hX; cases hX
  have hYkeys : Y ∉ g.states.map Prod.fst := not_mem_keys_of_dictGet_none hY
  have hnodupSet : ((dictSet g.states Y stX).map Prod.fst).Nodup := by
    have hk := dictKeys_dictSet_not_mem stX hY
    unfold dictKeys at hk
    rw [hk]
    simp [List.nodup_append, hnodup, hYkeys]
  have hS1X : dictGet (dictRemove (dictSet g.states Y stX) X) X = none :=
    dictGet_dictRemove_self hnodupSet
  have hS1Y : dictGet (dictRemove (dictSet g.states Y stX) X) Y = some stX := by
    rw [dictGet_dictRemove_ne (Ne.symm hXY), dictGet_dictSet]
    simp
  have hS1other : ∀ n, n ≠ X → n ≠ Y →
      dictGet (dictRemove (dictSet g.states Y stX) X) n = dictGet g.states n := by
    intro n hnX hnY
    rw [dictGet_dictRemove_ne hnX, dictGet_dictSet, if_neg hnY]
  have hnodupS1 : ((dictRemove (dictSet g.states Y stX) X).map Prod.fst).Nodup :=
    (dictKeys_dictRemove_sublist _ _).nodup hnodupSet
  by_cases hIX : g.init_state_name = X
  · refine ⟨Exploration.mk
      ((setCheckpointFlag (dictRemove (dictSet g.states Y stX) X) Y true).map
        (fun p => (p.1, p.2.retargetDests X Y)))
      Y g.title g.category g.objective, ?_, rfl, rfl, rfl, by simp [hIX], ?_, ?_⟩
    · simp [renameState, hX, hY, hXY, hIX, updateInitStateName, hS1X, hS1Y, Except.map]
    · have hm := dictKeys_map (setCheckpointFlag (dictRemove (dictSet g.states Y stX) X)
        Y true) (fun _ (st : State) => st.retargetDests X Y)
      have hs := dictKeys_setCheckpointFlag (dictRemove (dictSet g.states Y stX) X) Y true
      unfold dictKeys at hm hs
      show ((setCheckpointFlag (dictRemove (dictSet g.states Y stX) X) Y true).map
        (fun p => (p.1, p.2.retargetDests X Y))).map Prod.fst |>.Nodup
      rw [hm, hs]
      exact hnodupS1
    · intro n
      show dictGet ((setCheckpointFlag (dictRemove (dictSet g.states Y stX) X) Y
          true).map (fun p => (p.1, p.2.retargetDests X Y))) n = _
      rw [dictGet_map (fun _ (st : State) => st.retargetDests X Y) n,
        dictGet_setCheckpointFlag]
      by_cases hnY : n = Y
      · subst hnY
        rw [hS1Y]
        simp [hIX]
      by_cases hnX : n = X
      · subst hnX
        rw [hS1X, if_neg hnY]
        simp
      · rw [hS1other n hnX hnY, if_neg hnY, if_neg hnX]
        cases dictGet g.states n with
        | none => rfl
        | some stN => simp [hnY]
  · refine ⟨Exploration.mk
      ((dictRemove (dictSet g.states Y stX) X).map
        (fun p => (p.1, p.2.retargetDests X Y)))
      g.init_state_name g.title g.category g.objective, ?_, rfl, rfl, rfl,
      by simp [hIX], ?_, ?_⟩
    · simp [renameState, hX, hY, hXY, hIX, Except.map]
    · have hm := dictKeys_map (dictRemove (dictSet g.states Y stX) X)
        (fun _ (st : State) => st.retargetDests X Y)
      unfold dictKeys at hm
      show ((dictRemove (dictSet g.states Y stX) X).map
        (fun p => (p.1, p.2.retargetDests X Y))).map Prod.fst |>.Nodup
      rw [hm]
      exact hnodupS1
    · intro n
      show dictGet ((dictRemove (dictSet g.states Y stX) X).map
          (fun p => (p.1, p.2.retargetDests X Y))) n = _
      rw [dictGet_map (fun _ (st : State) => st.retargetDests X Y) n]
      by_cases hnY : n = Y
      · subst hnY
        rw [hS1Y]
        simp [hIX]
      by_cases hnX : n = X
      · subst hnX
        rw [hS1X, if_neg hnY]
        simp
      · rw [hS1other n hnX hnY, if_neg hnY, if_neg hnX]

/-- C6 (amended): renaming A→B then B→A restores the graph pointwise,
under the spec's own model invariants (unique node names, every outcome
destination and the init designation naming existing nodes) and provided
that, when A is the init node, its checkpoint flag is set (the init-node
update of a rename forces that flag). -/
theorem rename_round_trip (e : Exploration) (A B : String) (stA : State)
    (hA : dictGet e.states A = some stA)
    (hB : dictGet e.states B = none)
    (hnodup : (e.states.map Prod.fst).Nodup)
    (hinitmem : e.init_state_name ∈ e.states.map Prod.fst)
    (hclosed : ∀ n st, dictGet e.states n = some st →
      ∀ o ∈ st.interaction.get_all_outcomes, o.dest ∈ e.states.map Prod.fst)
    (hinitflag : e.init_state_name = A → stA.card_is_checkpoint = true) :
    ∃ g2 g3, renameState e A B = .ok g2 ∧ renameState g2 B A = .ok g3 ∧
      g3.init_state_name = e.init_state_name ∧
      g3.title = e.title ∧ g3.category = e.category ∧ g3.objective = e.objective ∧
      ∀ n, dictGet g3.states n = dictGet e.states n := by
  have hAB : A ≠ B := fun h => by rw [h, hB] at hA; cases hA
  have hBkeys : B ∉ e.states.map Prod.fst := not_mem_keys_of_dictGet_none hB
  have hInitNeB : e.init_state_name ≠ B := fun h => hBkeys (h ▸ hinitmem)
  have hdests : ∀ n st, dictGet e.states n = some st →
      ∀ o ∈ st.interaction.get_all_outcomes, o.dest ≠ B :=
    fun n st hget o ho h => hBkeys (h ▸ hclosed n st hget o ho)
  obtain ⟨g2, h1, ht2, hc2, ho2, hi2, hnd2, hl2⟩ :=
    renameState_ok_spec e A B stA hA hB hnodup
  have hg2B : dictGet g2.states B =
      some ((if e.init_state_name = A then
        { stA with card_is_checkpoint := true } else stA).retargetDests A B) := by
    rw [hl2 B, if_pos rfl]
  have hg2A : dictGet g2.states A = none := by
    rw [hl2 A, if_neg hAB, if_pos rfl]
  obtain ⟨g3, h2, ht3, hc3, ho3, hi3, _, hl3⟩ :=
    renameState_ok_spec g2 B A _ hg2B hg2A hnd2
  have hi2B : g2.init_state_name = B ↔ e.init_state_name = A := by
    rw [hi2]
    by_cases hI : e.init_state_name = A
    · simp [hI]
    · simp [hI, hInitNeB]
  refine ⟨g2, g3, h1, h2, ?_, ht3.trans ht2, hc3.trans hc2, ho3.trans ho2, ?_⟩
  · rw [hi3]
    by_cases hI : e.init_state_name = A
    · rw [if_pos (hi2B.mpr hI), hI]
    · rw [if_neg (fun h => hI (hi2B.mp h)), hi2, if_neg hI]
  · intro n
    rw [hl3 n]
    by_cases hnA : n = A
    · rw [if_pos hnA, hnA, hA]
      by_cases hI : e.init_state_name = A
      · rw [if_pos (hi2B.mpr hI), if_pos hI]
        exact congrArg some
          (State.flag_retarget_roundtrip stA A B (hdests A stA hA) (hinitflag hI))
      · rw [if_neg (fun h => hI (hi2B.mp h)), if_neg hI]
        exact congrArg some
          (State.retargetDests_roundtrip stA A B (hdests A stA hA))
    by_cases hnB : n = B
    · rw [if_neg hnA, if_pos hnB, hnB, hB]
    · rw [if_neg hnA, if_neg hnB, hl2 n, if_neg hnB, if_neg hnA]
      cases hcase : dictGet e.states n with
      | none => rfl
      | some stN =>
        have hrt := State.retargetDests_roundtrip stN A B (hdests n stN hcase)
        simp [hrt]

/-- A single-node graph whose init node is not checkpoint-flagged: the
rename round trip forces the flag on, so the round trip is not the
identity. -/
def exampleRenameGraph : Exploration :=
  { states := [("A", plainState [] true false)]
    init_state_name := "A", title := "t", category := "c", objective := "o" }

/-- C6 counterexample: renaming A→B then B→A on a graph whose init node A
has `card_is_checkpoint = False` yields a graph where the flag is `True` —
the per-node flags are not restored, refuting the round-trip claim as
stated. -/
theorem rename_round_trip_counterexample :
    ((renameState exampleRenameGraph "A" "B").bind
        (fun g => renameState g "B" "A")).map
        (fun g => (dictGet g.states "A").map (fun st => st.card_is_checkpoint)) =
      .ok (some true) ∧
    (dictGet exampleRenameGraph.states "A").map (fun st => st.card_is_checkpoint) =
      some false :=
  ⟨rfl, rfl⟩

theorem closed_of_forall_mem (e : Exploration)
    (h : ∀ p ∈ e.states, ∀ o ∈ p.2.interaction.get_all_outcomes,
      o.dest ∈ e.states.map Prod.fst) :
    ∀ n st, dictGet e.states n = some st →
      ∀ o ∈ st.interaction.get_all_outcomes, o.dest ∈ e.states.map Prod.fst :=
  fun n st hget o ho => h (n, st) (pair_mem_of_dictGet hget) o ho

/-- C6 witness: on the {X, Y, Z} graph (X the checkpoint-flagged init node,
Y→Z), renaming Y→W then W→Y restores the graph pointwise. -/
theorem rename_round_trip_witness :
    ∃ g2 g3, renameState exampleDeleteGraph "Y" "W" = .ok g2 ∧
      renameState g2 "W" "Y" = .ok g3 ∧
      g3.init_state_name = exampleDeleteGraph.init_state_name ∧
      g3.title = exampleDeleteGraph.title ∧
      g3.category = exampleDeleteGraph.category ∧
      g3.objective = exampleDeleteGraph.objective ∧
      ∀ n, dictGet g3.states n = dictGet exampleDeleteGraph.states n :=
  rename_round_trip exampleDeleteGraph "Y" "W" (plainState [groupTo "Z"] false false)
    (by decide) (by decide) (by decide) (by decide)
    (closed_of_forall_mem _ (by decide)) (by decide)

def CURRENT_EXP_SCHEMA_VERSION : Nat := 54

def EARLIEST_SUPPORTED_EXP_SCHEMA_VERSION : Nat := 46

/-- The schema-versioned serialized exploration. The claims about the
migration chain concern only the version bookkeeping, so the states
collection is an abstract payload `α`. -/
structure VersionedExplorationDict (α : Type) where
  schema_version : Nat
  states_schema_version : Nat
  states : α
  init_state_name : String
  deriving Repr, DecidableEq

/-- The states-level conversions `_convert_states_vN_dict_to_vN+1_dict`
(large HTML / structure transforms whose content the version-chain claims
do not constrain) are abstracted as parameters; the v43→v44 step also takes
the init state name, as in the source. -/
structure StatesConversions (α : Type) where
  v41_to_v42 : α → α
  v42_to_v43 : α → α
  v43_to_v44 : α → String → α
  v44_to_v45 : α → α
  v45_to_v46 : α → α
  v46_to_v47 : α → α
  v47_to_v48 : α → α
  v48_to_v49 : α → α

def convert_v46_dict_to_v47_dict (f : StatesConversions α)
    (d : VersionedExplorationDict α) : VersionedExplorationDict α :=
  { d with
    schema_version := 47
    states := f.v41_to_v42 d.states
    states_schema_version := 42 }

def convert_v47_dict_to_v48_dict (f : StatesConversions α)
    (d : VersionedExplorationDict α) : VersionedExplorationDict α :=
  { d with
    schema_version := 48
    states := f.v42_to_v43 d.states
    states_schema_version := 43 }

/-- The one step whose states conversion also receives the init node name. -/
def convert_v48_dict_to_v49_dict (f : StatesConversions α)
    (d : VersionedExplorationDict α) : VersionedExplorationDict α :=
  { d with
    schema_version := 49
    states := f.v43_to_v44 d.states d.init_state_name
    states_schema_version := 44 }

def convert_v49_dict_to_v50_dict (f : StatesConversions α)
    (d : VersionedExplorationDict α) : VersionedExplorationDict α :=
  { d with
    schema_version := 50
    states := f.v44_to_v45 d.states
    states_schema_version := 45 }

def convert_v50_dict_to_v51_dict (f : StatesConversions α)
    (d : VersionedExplorationDict α) : VersionedExplorationDict α :=
  { d with
    schema_version := 51
    states := f.v45_to_v46 d.states
    states_schema_version := 46 }

def convert_v51_dict_to_v52_dict (f : StatesConversions α)
    (d : VersionedExplorationDict α) : VersionedExplorationDict α :=
  { d with
    schema_version := 52
    states := f.v46_to_v47 d.states
    states_schema_version := 47 }

def convert_v52_dict_to_v53_dict (f : StatesConversions α)
    (d : VersionedExplorationDict α) : VersionedExplorationDict α :=
  { d with
    schema_version := 53
    states := f.v47_to_v48 d.states
    states_schema_version := 48 }

def convert_v53_dict_to_v54_dict (f : StatesConversions α)
    (d : VersionedExplorationDict α) : VersionedExplorationDict α :=
  { d with
    schema_version := 54
    states := f.v48_to_v49 d.states
    states_schema_version := 49 }

/-- `_migrate_to_latest_yaml_version` (yaml parsing is the external
collaborator and is outside this model), instrumented with the list of
values the local `exploration_schema_version` variable takes: its initial
value followed by its value after each applied single-step conversion. -/
def migrateToLatestYamlVersion (f : StatesConversions α)
    (d0 : VersionedExplorationDict α) :
    Except String (VersionedExplorationDict α × List Nat) :=
  let v0 := d0.schema_version
  if EARLIEST_SUPPORTED_EXP_SCHEMA_VERSION ≤ v0 ∧
      v0 ≤ CURRENT_EXP_SCHEMA_VERSION then
    let (d1, v1, t1) :=
      if v0 = 46 then (convert_v46_dict_to_v47_dict f d0, 47, [v0] ++ [47])
      else (d0, v0, [v0])
    let (d2, v2, t2) :=
      if v1 = 47 then (convert_v47_dict_to_v48_dict f d1, 48, t1 ++ [48]) else (d1, v1, t1)
    let (d3, v3, t3) :=
      if v2 = 48 then (convert_v48_dict_to_v49_dict f d2, 49, t2 ++ [49]) else (d2, v2, t2)
    let (d4, v4, t4) :=
      if v3 = 49 then (convert_v49_dict_to_v50_dict f d3, 50, t3 ++ [50]) else (d3, v3, t3)
    let (d5, v5, t5) :=
      if v4 = 50 then (convert_v50_dict_to_v51_dict f d4, 51, t4 ++ [51]) else (d4, v4, t4)
    let (d6, v6, t6) :=
      if v5 = 51 then (convert_v51_dict_to_v52_dict f d5, 52, t5 ++ [52]) else (d5, v5, t5)
    let (d7, v7, t7) :=
      if v6 = 52 then (convert_v52_dict_to_v53_dict f d6, 53, t6 ++ [53]) else (d6, v6, t6)
    let (d8, _, t8) :=
      if v7 = 53 then (convert_v53_dict_to_v54_dict f d7, 54, t7 ++ [54]) else (d7, v7, t7)
    .ok (d8, t8)
  else
    .error "Sorry, we can only process v46 to v54 exploration YAML files at present."

/-- C5: migrating a serialized exploration whose schema version lies outside
[46, 54] fails with the unsupported-version error; inside the range it
succeeds, the local schema version runs through each value from the initial
one up to 54 exactly once (each conversion step adds exactly 1), and the
result carries schema version 54. -/
theorem migrate_version_chain (f : StatesConversions α)
    (d : VersionedExplorationDict α) :
    (¬(EARLIEST_SUPPORTED_EXP_SCHEMA_VERSION ≤ d.schema_version ∧
        d.schema_version ≤ CURRENT_EXP_SCHEMA_VERSION) →
      ∃ msg, migrateToLatestYamlVersion f d = .error msg) ∧
    ((EARLIEST_SUPPORTED_EXP_SCHEMA_VERSION ≤ d.schema_version ∧
        d.schema_version ≤ CURRENT_EXP_SCHEMA_VERSION) →
      ∃ r, migrateToLatestYamlVersion f d = .ok r ∧
        r.1.schema_version = CURRENT_EXP_SCHEMA_VERSION ∧
        r.2 = List.range' d.schema_version (55 - d.schema_version)) := by
  obtain ⟨v, sv, st0, init⟩ := d
  constructor
  · intro h
    exact ⟨_, by rw [migrateToLatestYamlVersion, if_neg h]⟩
  · intro h
    obtain ⟨h1, h2⟩ := h
    simp only [EARLIEST_SUPPORTED_EXP_SCHEMA_VERSION] at h1
    simp only [CURRENT_EXP_SCHEMA_VERSION] at h2
    have hv : v = 46 ∨ v = 47 ∨ v = 48 ∨ v = 49 ∨ v = 50 ∨ v = 51 ∨ v = 52 ∨
        v = 53 ∨ v = 54 := by omega
    rcases hv with hv | hv | hv | hv | hv | hv | hv | hv | hv <;>
      subst hv <;> exact ⟨_, rfl, rfl, rfl⟩

/-- Identity states conversions over a trivial payload, to exercise the
version chain concretely. -/
def unitConversions : StatesConversions Unit :=
  { v41_to_v42 := fun s => s
    v42_to_v43 := fun s => s
    v43_to_v44 := fun s _ => s
    v44_to_v45 := fun s => s
    v45_to_v46 := fun s => s
    v46_to_v47 := fun s => s
    v47_to_v48 := fun s => s
    v48_to_v49 := fun s => s }

/-- C5 witness: version 55 is rejected; version 46 migrates to 54 through
the trace [46, 47, ..., 54], via the theorem. -/
theorem migrate_version_chain_witness :
    (∃ msg, migrateToLatestYamlVersion unitConversions
        (VersionedExplorationDict.mk 55 50 () "Init") = .error msg) ∧
    ∃ r, migrateToLatestYamlVersion unitConversions
        (VersionedExplorationDict.mk 46 41 () "Init") = .ok r ∧
      r.1.schema_version = CURRENT_EXP_SCHEMA_VERSION ∧
      r.2 = List.range' 46 9 :=
  ⟨(migrate_version_chain unitConversions
      (VersionedExplorationDict.mk 55 50 () "Init")).1 (by decide),
   (migrate_version_chain unitConversions
      (VersionedExplorationDict.mk 46 41 () "Init")).2 (by decide)⟩

def STATE_PROPERTY_PARAM_CHANGES : String := "param_changes"

def STATE_PROPERTY_CONTENT : String := "content"

def STATE_PROPERTY_SOLICIT_ANSWER_DETAILS : String := "solicit_answer_details"

def STATE_PROPERTY_CARD_IS_CHECKPOINT : String := "card_is_checkpoint"

def STATE_PROPERTY_RECORDED_VOICEOVERS : String := "recorded_voiceovers"

def STATE_PROPERTY_WRITTEN_TRANSLATIONS : String := "written_translations"

def STATE_PROPERTY_INTERACTION_ID : String := "widget_id"

def STATE_PROPERTY_NEXT_CONTENT_ID_INDEX : String := "next_content_id_index"

def STATE_PROPERTY_LINKED_SKILL_ID : String := "linked_skill_id"

def STATE_PROPERTY_INTERACTION_CUST_ARGS : String := "widget_customization_args"

def STATE_PROPERTY_INTERACTION_ANSWER_GROUPS : String := "answer_groups"

def STATE_PROPERTY_INTERACTION_DEFAULT_OUTCOME : String := "default_outcome"

def STATE_PROPERTY_UNCLASSIFIED_ANSWERS : String := "confirmed_unclassified_answers"

def STATE_PROPERTY_INTERACTION_HINTS : String := "hints"

def STATE_PROPERTY_INTERACTION_SOLUTION : String := "solution"

/-- `ExplorationChange`, restricted to the command tags and the fields the
merge verifier inspects (a command the verifier has no branch for leaves the
per-change flag `False`). -/
inductive ExplorationChange where
  | addState (state_name : String)
  | deleteState (state_name : String)
  | renameState (old_state_name new_state_name : String)
  | editStateProperty (state_name property_name : String)
  | addWrittenTranslation (state_name content_id : String)
  | markWrittenTranslationAsNeedingUpdate (state_name content_id : String)
  | markWrittenTranslationsAsNeedingUpdate (state_name : String)
  | editExplorationProperty (property_name : String)
  | createNew
  | migrateStatesSchemaToLatestVersion
  deriving Repr, DecidableEq

def PROPERTIES_CONFLICTING_INTERACTION_ID_CHANGES : List String :=
  [STATE_PROPERTY_INTERACTION_CUST_ARGS,
   STATE_PROPERTY_INTERACTION_SOLUTION,
   STATE_PROPERTY_INTERACTION_ANSWER_GROUPS]

def PROPERTIES_CONFLICTING_CUST_ARGS_CHANGES : List String :=
  [STATE_PROPERTY_INTERACTION_SOLUTION,
   STATE_PROPERTY_RECORDED_VOICEOVERS,
   STATE_PROPERTY_INTERACTION_ANSWER_GROUPS]

/-- Declared on the verifier class for answer-groups conflicts, but never
referenced by `is_change_list_mergeable`, which uses
`PROPERTIES_CONFLICTING_CUST_ARGS_CHANGES` in the answer-groups branch
instead (see the C2 analysis). -/
def PROPERTIES_CONFLICTING_ANSWER_GROUPS_CHANGES : List String :=
  [STATE_PROPERTY_INTERACTION_SOLUTION,
   STATE_PROPERTY_RECORDED_VOICEOVERS,
   STATE_PROPERTY_INTERACTION_CUST_ARGS]

/-- Declared for solution conflicts; also unused by the source. -/
def PROPERTIES_CONFLICTING_SOLUTION_CHANGES : List String :=
  [STATE_PROPERTY_INTERACTION_ANSWER_GROUPS,
   STATE_PROPERTY_RECORDED_VOICEOVERS,
   STATE_PROPERTY_INTERACTION_CUST_ARGS]

def PROPERTIES_CONFLICTING_VOICEOVERS_CHANGES : List String :=
  [STATE_PROPERTY_CONTENT,
   STATE_PROPERTY_INTERACTION_SOLUTION,
   STATE_PROPERTY_INTERACTION_HINTS,
   STATE_PROPERTY_WRITTEN_TRANSLATIONS,
   STATE_PROPERTY_INTERACTION_ANSWER_GROUPS,
   STATE_PROPERTY_INTERACTION_DEFAULT_OUTCOME,
   STATE_PROPERTY_INTERACTION_CUST_ARGS]

def NON_CONFLICTING_PROPERTIES : List String :=
  [STATE_PROPERTY_UNCLASSIFIED_ANSWERS,
   STATE_PROPERTY_NEXT_CONTENT_ID_INDEX,
   STATE_PROPERTY_LINKED_SKILL_ID,
   STATE_PROPERTY_CARD_IS_CHECKPOINT]

/-- The state of `ExplorationChangeMergeVerifier.__init__` after parsing the
composite change list. `changed_translations` holds results of
`_get_property_name_from_content_id`, which can be `None`. -/
structure ExplorationChangeMergeVerifier where
  added_state_names : List String
  deleted_state_names : List String
  new_to_old_state_names : List (String × String)
  changed_properties : List (String × List String)
  changed_translations : List (String × List (Option String))
  deriving Repr, DecidableEq

def emptyMergeVerifier : ExplorationChangeMergeVerifier := ⟨[], [], [], [], []⟩

/-- `collections.defaultdict(set)` read: a missing key is the empty set. -/
def multidictGet (d : List (String × List β)) (k : String) : List β :=
  (dictGet d k).getD []

/-- `collections.defaultdict(set)` `.add`: sets are kept as duplicate-free
lists, so only membership matters. -/
def multidictAdd [DecidableEq β] (d : List (String × List β)) (k : String) (v : β) :
    List (String × List β) :=
  let vs := multidictGet d k
  if v ∈ vs then d else dictSet d k (vs ++ [v])

/-- `_get_property_name_from_content_id`: first matching content-id shape in
the source's insertion order, `None` when no shape matches. -/
def getPropertyNameFromContentId (content_id : String) : Option String :=
  if content_id = "content" then some STATE_PROPERTY_CONTENT
  else if content_id.take 3 = "ca_" then some STATE_PROPERTY_INTERACTION_CUST_ARGS
  else if content_id = "default_outcome" then
    some STATE_PROPERTY_INTERACTION_DEFAULT_OUTCOME
  else if content_id = "solution" then some STATE_PROPERTY_INTERACTION_SOLUTION
  else if content_id.take 4 = "hint" then some STATE_PROPERTY_INTERACTION_HINTS
  else if content_id.take 8 = "feedback" ∨ content_id.take 10 = "rule_input" then
    some STATE_PROPERTY_INTERACTION_ANSWER_GROUPS
  else none

/-- `_parse_exp_change`: fold one composite change into the verifier state. -/
def parseExpChange (v : ExplorationChangeMergeVerifier) (change : ExplorationChange) :
    ExplorationChangeMergeVerifier :=
  match change with
  | .addState state_name =>
    { v with added_state_names := v.added_state_names ++ [state_name] }
  | .deleteState state_name =>
    if state_name ∈ v.added_state_names then
      { v with added_state_names := v.added_state_names.erase state_name }
    else
      match dictGet v.new_to_old_state_names state_name with
      | some original =>
        { v with
          new_to_old_state_names := dictRemove v.new_to_old_state_names state_name
          deleted_state_names := v.deleted_state_names ++ [original] }
      | none =>
        { v with deleted_state_names := v.deleted_state_names ++ [state_name] }
  | .renameState old_state_name new_state_name =>
    if old_state_name ∈ v.added_state_names then
      { v with added_state_names :=
          v.added_state_names.erase old_state_name ++ [new_state_name] }
    else
      match dictGet v.new_to_old_state_names old_state_name with
      | some original =>
        { v with new_to_old_state_names :=
            (dictSet (dictRemove v.new_to_old_state_names old_state_name)
              new_state_name original) }
      | none =>
        { v with new_to_old_state_names :=
            dictSet v.new_to_old_state_names new_state_name old_state_name }
  | .editStateProperty state_name property_name =>
    let sn := match dictGet v.new_to_old_state_names state_name with
      | some old => old
      | none => state_name
    { v with changed_properties := multidictAdd v.changed_properties sn property_name }
  | .addWrittenTranslation state_name content_id =>
    let changed_property := getPropertyNameFromContentId content_id
    let sn := match dictGet v.new_to_old_state_names state_name with
      | some old => old
      | none => state_name
    { v with
      changed_translations := multidictAdd v.changed_translations sn changed_property
      changed_properties := multidictAdd v.changed_properties sn
        STATE_PROPERTY_WRITTEN_TRANSLATIONS }
  | _ => v

/-- `ExplorationChangeMergeVerifier.__init__`. -/
def buildMergeVerifier (composite_change_list : List ExplorationChange) :
    ExplorationChangeMergeVerifier :=
  composite_change_list.foldl parseExpChange emptyMergeVerifier

/-- The `{value: key for key, value in new_to_old_state_names.items()}`
comprehension (a later duplicate value overwrites an earlier key). -/
def oldToNewStateNames (v : ExplorationChangeMergeVerifier) : List (String × String) :=
  v.new_to_old_state_names.foldl (fun acc p => dictSet acc p.2 p.1) []

/-- `exp.states[state_name]` in the verifier; Python would raise KeyError on
a missing name, which the claims' inputs never do — totalized with the
default state. -/
def Exploration.stateAt (e : Exploration) (n : String) : State :=
  (dictGet e.states n).getD (State.createDefault n)

/-- Python `getattr` on the exploration, for the document-level properties
this embedding carries. -/
def Exploration.getAttr (e : Exploration) (p : String) : String :=
  if p = "title" then e.title
  else if p = "category" then e.category
  else if p = "objective" then e.objective
  else if p = "init_state_name" then e.init_state_name
  else ""

inductive ChangeMergeResult where
  | mergeable
  | notMergeable
  | sendToAdmin
  deriving Repr, DecidableEq

/-- `state_names_of_renamed_states.get(x) or x` — the Python `or` also falls
back on an empty-string value (falsy). -/
def renamedLookup (renamed : List (String × String)) (s : String) : String :=
  match dictGet renamed s with
  | some v => if v = "" then s else v
  | none => s

def listIntersects (a b : List String) : Bool := a.any (fun x => b.contains x)

/-- One iteration of the candidate loop of `is_change_list_mergeable`: the
decision for this change, plus the updated `state_names_of_renamed_states`
table. Each `edit_state_property` branch ends with the source's
`if not self.changed_properties[state_name]: change_is_mergeable = True`
fallback, written `|| props.isEmpty`. The answer-groups branch checks
`PROPERTIES_CONFLICTING_CUST_ARGS_CHANGES`, exactly as the source does. -/
def processChange (v : ExplorationChangeMergeVerifier)
    (old_to_new : List (String × String))
    (exp_at_change_list_version current_exploration : Exploration)
    (renamed : List (String × String)) (change : ExplorationChange) :
    ChangeMergeResult × List (String × String) :=
  match change with
  | .renameState old_state_name new_state_name =>
    let renamed1 :=
      match dictGet renamed old_state_name with
      | some orig => dictSet (dictRemove renamed old_state_name) new_state_name orig
      | none => dictSet renamed new_state_name old_state_name
    if (dictGet old_to_new ((dictGet renamed1 new_state_name).getD "")).isNone then
      (.mergeable, renamed1)
    else (.notMergeable, renamed1)
  | .editStateProperty state_name property_name =>
    let sn := renamedLookup renamed state_name
    if (dictGet old_to_new sn).isSome then (.sendToAdmin, renamed)
    else
      let old_st := exp_at_change_list_version.stateAt sn
      let cur_st := current_exploration.stateAt sn
      let props := multidictGet v.changed_properties sn
      let trans := multidictGet v.changed_translations sn
      let m : Bool :=
        if property_name = STATE_PROPERTY_CONTENT then
          (decide (old_st.content_html = cur_st.content_html) &&
            !trans.contains (some STATE_PROPERTY_CONTENT) &&
            !props.contains STATE_PROPERTY_RECORDED_VOICEOVERS) || props.isEmpty
        else if property_name = STATE_PROPERTY_INTERACTION_ID then
          (decide (old_st.interaction.id = cur_st.interaction.id) &&
            !listIntersects props PROPERTIES_CONFLICTING_INTERACTION_ID_CHANGES) ||
            props.isEmpty
        else if property_name = STATE_PROPERTY_INTERACTION_CUST_ARGS then
          (decide (old_st.interaction.id = cur_st.interaction.id) &&
            !listIntersects props (PROPERTIES_CONFLICTING_CUST_ARGS_CHANGES ++
              [STATE_PROPERTY_INTERACTION_CUST_ARGS]) &&
            !trans.contains (some STATE_PROPERTY_INTERACTION_CUST_ARGS)) || props.isEmpty
        else if property_name = STATE_PROPERTY_INTERACTION_ANSWER_GROUPS then
          (decide (old_st.interaction.id = cur_st.interaction.id) &&
            !listIntersects props (PROPERTIES_CONFLICTING_CUST_ARGS_CHANGES ++
              [STATE_PROPERTY_INTERACTION_ANSWER_GROUPS]) &&
            !trans.contains (some STATE_PROPERTY_INTERACTION_ANSWER_GROUPS)) ||
            props.isEmpty
        else if property_name = STATE_PROPERTY_INTERACTION_DEFAULT_OUTCOME then
          (!props.contains property_name && !trans.contains (some property_name)) ||
            props.isEmpty
        else if NON_CONFLICTING_PROPERTIES.contains property_name then true
        else if property_name = STATE_PROPERTY_INTERACTION_HINTS then
          (!props.contains property_name && !trans.contains (some property_name)) ||
            props.isEmpty
        else if property_name = STATE_PROPERTY_INTERACTION_SOLUTION then
          (decide (old_st.interaction.id = cur_st.interaction.id) &&
            !listIntersects props (PROPERTIES_CONFLICTING_CUST_ARGS_CHANGES ++
              [STATE_PROPERTY_INTERACTION_SOLUTION]) &&
            !trans.contains (some STATE_PROPERTY_INTERACTION_SOLUTION)) || props.isEmpty
        else if property_name = STATE_PROPERTY_SOLICIT_ANSWER_DETAILS then
          (decide (old_st.interaction.id = cur_st.interaction.id) &&
            decide (old_st.solicit_answer_details = cur_st.solicit_answer_details)) ||
            props.isEmpty
        else if property_name = STATE_PROPERTY_RECORDED_VOICEOVERS then
          !listIntersects props (PROPERTIES_CONFLICTING_VOICEOVERS_CHANGES ++
            [STATE_PROPERTY_RECORDED_VOICEOVERS]) || props.isEmpty
        else false
      if m then (.mergeable, renamed) else (.notMergeable, renamed)
  | .addWrittenTranslation state_name content_id =>
    let sn := renamedLookup renamed state_name
    if (dictGet old_to_new sn).isSome then (.sendToAdmin, renamed)
    else
      let changed_property := getPropertyNameFromContentId content_id
      let props := multidictGet v.changed_properties sn
      let trans := multidictGet v.changed_translations sn
      let inUnion : Bool :=
        match changed_property with
        | some p => props.contains p || trans.contains (some p)
        | none => trans.contains none
      if !inUnion || props.isEmpty then (.mergeable, renamed)
      else (.notMergeable, renamed)
  | .markWrittenTranslationAsNeedingUpdate _ _ => (.mergeable, renamed)
  | .markWrittenTranslationsAsNeedingUpdate _ => (.mergeable, renamed)
  | .editExplorationProperty property_name =>
    if exp_at_change_list_version.getAttr property_name =
        current_exploration.getAttr property_name then (.mergeable, renamed)
    else (.notMergeable, renamed)
  | _ => (.notMergeable, renamed)

/-- The candidate loop: `changes_are_mergeable` starts `False` and is only
set inside the loop; a non-mergeable change breaks with `(False, False)`, a
rename-into-edited-state conflict returns `(False, True)` immediately. -/
def mergeLoop (v : ExplorationChangeMergeVerifier)
    (old_to_new : List (String × String))
    (exp_at_change_list_version current_exploration : Exploration) :
    List (String × String) → Bool → List ExplorationChange → Bool × Bool
  | _, acc, [] => (acc, false)
  | renamed, _, c :: rest =>
    match processChange v old_to_new exp_at_change_list_version current_exploration
        renamed c with
    | (.sendToAdmin, _) => (false, true)
    | (.mergeable, renamed1) =>
      mergeLoop v old_to_new exp_at_change_list_version current_exploration
        renamed1 true rest
    | (.notMergeable, _) => (false, false)

/-- `ExplorationChangeMergeVerifier.is_change_list_mergeable`. -/
def isChangeListMergeable (v : ExplorationChangeMergeVerifier)
    (change_list : List ExplorationChange)
    (exp_at_change_list_version current_exploration : Exploration) : Bool × Bool :=
  if v.added_state_names ≠ [] ∨ v.deleted_state_names ≠ [] then (false, true)
  else
    mergeLoop v (oldToNewStateNames v) exp_at_change_list_version current_exploration
      [] false change_list

/-- A one-state exploration used as both versions in concrete merge runs
(so per-state comparisons like interaction id trivially agree). -/
def exampleExpS : Exploration :=
  { states := [("S", plainState [] false false)]
    init_state_name := "S", title := "t", category := "c", objective := "o" }

/-- C1 counterexample: a composite list that contains an `add_state` and a
`delete_state` command which cancel each other does not return
`(False, True)` — with an empty candidate list it returns `(False, False)`,
refuting "regardless of the candidate list's contents". -/
theorem merge_structural_counterexample :
    isChangeListMergeable (buildMergeVerifier
        [ExplorationChange.addState "X", ExplorationChange.deleteState "X"]) []
        exampleExpS exampleExpS = (false, false) ∧
    isChangeListMergeable (buildMergeVerifier
        [ExplorationChange.addState "X", ExplorationChange.deleteState "X"]) []
        exampleExpS exampleExpS ≠ (false, true) := by
  decide

/-- C1 (amended): whenever parsing the composite list leaves a non-empty net
added-state list or deleted-state list, `is_change_list_mergeable` returns
`(False, True)` regardless of the candidate list. -/
theorem merge_structural_rejection (cl candidate : List ExplorationChange)
    (oe ce : Exploration)
    (h : (buildMergeVerifier cl).added_state_names ≠ [] ∨
      (buildMergeVerifier cl).deleted_state_names ≠ []) :
    isChangeListMergeable (buildMergeVerifier cl) candidate oe ce = (false, true) := by
  unfold isChangeListMergeable
  rw [if_pos h]

/-- C1 witness: a composite with one (uncancelled) `add_state`. -/
theorem merge_structural_rejection_witness :
    isChangeListMergeable (buildMergeVerifier [ExplorationChange.addState "X"])
      [ExplorationChange.markWrittenTranslationsAsNeedingUpdate "S"]
      exampleExpS exampleExpS = (false, true) :=
  merge_structural_rejection [ExplorationChange.addState "X"]
    [ExplorationChange.markWrittenTranslationsAsNeedingUpdate "S"]
    exampleExpS exampleExpS (Or.inl (by decide))

/-- C9: with no net added or deleted states in the composite list, an empty
candidate change list is reported not mergeable: `(False, False)`, since the
mergeable flag starts `False` and is only set inside the loop. -/
theorem merge_empty_candidate (cl : List ExplorationChange) (oe ce : Exploration)
    (h1 : (buildMergeVerifier cl).added_state_names = [])
    (h2 : (buildMergeVerifier cl).deleted_state_names = []) :
    isChangeListMergeable (buildMergeVerifier cl) [] oe ce = (false, false) := by
  unfold isChangeListMergeable
  rw [if_neg (by simp [h1, h2])]
  rfl

/-- C9 witness. -/
theorem merge_empty_candidate_witness :
    isChangeListMergeable (buildMergeVerifier
        [ExplorationChange.editStateProperty "S" STATE_PROPERTY_CONTENT]) []
      exampleExpS exampleExpS = (false, false) :=
  merge_empty_candidate [ExplorationChange.editStateProperty "S" STATE_PROPERTY_CONTENT]
    exampleExpS exampleExpS (by decide) (by decide)

/-- C2 (code bug): `widget_customization_args` is in the verifier's own
`PROPERTIES_CONFLICTING_ANSWER_GROUPS_CHANGES` table, yet a candidate
answer-groups edit against a composite that changed exactly the
customization args of the same state is judged mergeable — the source's
answer-groups branch consults `PROPERTIES_CONFLICTING_CUST_ARGS_CHANGES`
(which lacks cust-args) instead of the declared answer-groups table. -/
theorem answer_groups_cust_args_merge_bug :
    STATE_PROPERTY_INTERACTION_CUST_ARGS ∈ PROPERTIES_CONFLICTING_ANSWER_GROUPS_CHANGES ∧
    multidictGet (buildMergeVerifier
        [ExplorationChange.editStateProperty "S"
          STATE_PROPERTY_INTERACTION_CUST_ARGS]).changed_properties "S" =
      [STATE_PROPERTY_INTERACTION_CUST_ARGS] ∧
    isChangeListMergeable (buildMergeVerifier
        [ExplorationChange.editStateProperty "S" STATE_PROPERTY_INTERACTION_CUST_ARGS])
      [ExplorationChange.editStateProperty "S" STATE_PROPERTY_INTERACTION_ANSWER_GROUPS]
      exampleExpS exampleExpS = (true, false) := by
  decide

/-- C3 counterexample: the composite list touched only `recorded_voiceovers`
of S — none of the claim's seven conflict properties — yet a candidate
voiceover edit of S is judged not mergeable, refuting the claim's "if". -/
theorem voiceovers_merge_counterexample :
    listIntersects (multidictGet (buildMergeVerifier
        [ExplorationChange.editStateProperty "S"
          STATE_PROPERTY_RECORDED_VOICEOVERS]).changed_properties "S")
      PROPERTIES_CONFLICTING_VOICEOVERS_CHANGES = false ∧
    isChangeListMergeable (buildMergeVerifier
        [ExplorationChange.editStateProperty "S" STATE_PROPERTY_RECORDED_VOICEOVERS])
      [ExplorationChange.editStateProperty "S" STATE_PROPERTY_RECORDED_VOICEOVERS]
      exampleExpS exampleExpS = (false, false) := by
  decide

/-- C3 (amended): a candidate `recorded_voiceovers` edit of a state S that
does not map into the composite rename table is judged mergeable whenever
the composite touched none of {content, solution, hints,
written_translations, answer_groups, default_outcome, customization_args}
nor `recorded_voiceovers` itself for S. -/
theorem voiceovers_merge_rule (v : ExplorationChangeMergeVerifier)
    (old_to_new renamed : List (String × String)) (oe ce : Exploration) (S : String)
    (hren : dictGet old_to_new (renamedLookup renamed S) = none)
    (hprops : listIntersects (multidictGet v.changed_properties (renamedLookup renamed S))
      (PROPERTIES_CONFLICTING_VOICEOVERS_CHANGES ++
        [STATE_PROPERTY_RECORDED_VOICEOVERS]) = false) :
    (processChange v old_to_new oe ce renamed
      (ExplorationChange.editStateProperty S STATE_PROPERTY_RECORDED_VOICEOVERS)).1 =
      ChangeMergeResult.mergeable := by
  have hsome : (dictGet old_to_new (renamedLookup renamed S)).isSome = false := by
    rw [hren]
    rfl
  simp only [processChange, hsome]
  simp only [STATE_PROPERTY_RECORDED_VOICEOVERS] at hprops
  simp [hprops, STATE_PROPERTY_RECORDED_VOICEOVERS, STATE_PROPERTY_CONTENT,
    STATE_PROPERTY_INTERACTION_ID, STATE_PROPERTY_INTERACTION_CUST_ARGS,
    STATE_PROPERTY_INTERACTION_ANSWER_GROUPS, STATE_PROPERTY_INTERACTION_DEFAULT_OUTCOME,
    NON_CONFLICTING_PROPERTIES, STATE_PROPERTY_UNCLASSIFIED_ANSWERS,
    STATE_PROPERTY_NEXT_CONTENT_ID_INDEX, STATE_PROPERTY_LINKED_SKILL_ID,
    STATE_PROPERTY_CARD_IS_CHECKPOINT, STATE_PROPERTY_INTERACTION_HINTS,
    STATE_PROPERTY_INTERACTION_SOLUTION, STATE_PROPERTY_SOLICIT_ANSWER_DETAILS]

/-- C3 amended witness: composite touched only `solicit_answer_details` of
S (outside the eight), so a voiceover edit of S merges. -/
theorem voiceovers_merge_rule_witness :
    (processChange (buildMergeVerifier
        [ExplorationChange.editStateProperty "S" STATE_PROPERTY_SOLICIT_ANSWER_DETAILS])
      (oldToNewStateNames (buildMergeVerifier
        [ExplorationChange.editStateProperty "S" STATE_PROPERTY_SOLICIT_ANSWER_DETAILS]))
      exampleExpS exampleExpS []
      (ExplorationChange.editStateProperty "S" STATE_PROPERTY_RECORDED_VOICEOVERS)).1 =
      ChangeMergeResult.mergeable :=
  voiceovers_merge_rule _ _ _ _ _ "S" (by decide) (by decide)

end Oppia
